import Mathlib

/-!
# Verification of the polymarket_monitor_engine core

A shallow embedding, in Lean 4, of the parts of the
`polymarket_monitor_engine` Python repository that the specification's
claims are about:

* `application/orderbook.py` — per-token order book registry with
  snapshot + delta application and sequence-gap detection;
* `domain/selection.py` — pure market-selection functions;
* `application/signals/detector.py` — the signal engine (trade windows,
  gating, merge buckets);
* `adapters/multiplex_sink.py` — the multiplex event sink;
* `adapters/gamma_http.py` — the catalog client's event filtering
  (pure, post-fetch portion);
* `adapters/clob_ws.py` — the websocket feed client's subscription
  frames.

Modelling conventions used throughout:

* Python `float` is modelled as `ℚ` (all operations the claims touch are
  exact arithmetic and comparisons).
* Python `dict` (insertion ordered) is modelled as an association list
  `List (κ × ν)` with unique keys: updates overwrite in place, fresh keys
  append at the end, exactly like CPython's insertion-order semantics.
* Python's stable `list.sort` is modelled by `List.insertionSort`, which
  is likewise stable, so both produce the identical output list.
* `None` is modelled by `Option`; Python's falsy-`or` chains over strings
  and lists are modelled by dedicated `pyOr*` helpers that treat `""`/`[]`
  as falsy, and value coalescing (`_coalesce`) by `Option.orElse`.
* Wire values that the adapters coerce (`_to_bool`, `_to_float` …) are
  modelled by a small `PyVal` scalar type.
-/

/-- Python `a or b` for optional strings: `None` and `""` are falsy. -/
def pyOrStr (a b : Option String) : Option String :=
  match a with
  | some s => if s = "" then b else some s
  | none => b

/-- Python `a or b` for optional lists: `None` and `[]` are falsy. -/
def pyOrList {α : Type} (a b : Option (List α)) : Option (List α) :=
  match a with
  | some l => if l.isEmpty then b else some l
  | none => b

/-- `_coalesce(*values)` from the source: first non-`None` value. -/
def pyCoalesce {α : Type} (a b : Option α) : Option α :=
  match a with
  | some x => some x
  | none => b

/-- Python `str.upper()` (ASCII; the wire values compared this way are
ASCII). Defined over the character list so that proofs can evaluate it. -/
def pyUpper (s : String) : String := String.mk (s.data.map Char.toUpper)

/-- Python `str.lower()` (ASCII). -/
def pyLower (s : String) : String := String.mk (s.data.map Char.toLower)

/-- Python `str.strip()` (ASCII whitespace). -/
def pyStrip (s : String) : String :=
  String.mk (((s.data.dropWhile Char.isWhitespace).reverse.dropWhile
    Char.isWhitespace).reverse)

/-- Insertion-ordered dict update: overwrite in place, append fresh keys. -/
def dictSet {κ ν : Type} [DecidableEq κ] (d : List (κ × ν)) (k : κ) (v : ν) :
    List (κ × ν) :=
  if d.any (fun p => p.1 = k) then
    d.map (fun p => if p.1 = k then (k, v) else p)
  else
    d ++ [(k, v)]

/-- `dict.pop(k, None)`: drop the binding for `k` if present. -/
def dictPop {κ ν : Type} [DecidableEq κ] (d : List (κ × ν)) (k : κ) :
    List (κ × ν) :=
  d.filter (fun p => p.1 ≠ k)

/-- `d.get(k)`: first binding for `k`, if any. -/
def dictGet {κ ν : Type} [DecidableEq κ] (d : List (κ × ν)) (k : κ) : Option ν :=
  (d.find? (fun p => p.1 = k)).map Prod.snd

/-- A scalar JSON/Python value as the adapters receive it. -/
inductive PyVal where
  | none
  | bool (b : Bool)
  | num (q : ℚ)
  | str (s : String)
deriving DecidableEq

namespace OrderBook

/-- `domain/models.py::BookLevel`. -/
structure BookLevel where
  price : ℚ
  size : ℚ
deriving DecidableEq

/-- `domain/models.py::BookSnapshot`. -/
structure BookSnapshot where
  token_id : String
  bids : List BookLevel
  asks : List BookLevel
  ts_ms : Int
deriving DecidableEq

/-- `application/orderbook.py::OrderBookState`; the two books are
insertion-ordered Python dicts `price → size`. -/
structure OrderBookState where
  token_id : String
  bids : List (ℚ × ℚ)
  asks : List (ℚ × ℚ)
  last_seq : Option Int := Option.none
  last_ts_ms : Option Int := Option.none
deriving DecidableEq

/-- `application/orderbook.py::OrderBookUpdateResult`. -/
structure OrderBookUpdateResult where
  token_id : Option String
  snapshot : Option BookSnapshot
  resync_needed : Bool := false
  expected_seq : Option Int := Option.none
  received_seq : Option Int := Option.none
deriving DecidableEq

/-- `OrderBookState.apply_snapshot`: replace both books with the
snapshot's levels (dict comprehension — later duplicates of a price
overwrite earlier ones), keep `last_seq` when no `seq` was supplied. -/
def OrderBookState.apply_snapshot (st : OrderBookState) (snapshot : BookSnapshot)
    (seq : Option Int) : OrderBookState :=
  { st with
    bids := snapshot.bids.foldl (fun d l => dictSet d l.price l.size) []
    asks := snapshot.asks.foldl (fun d l => dictSet d l.price l.size) []
    last_seq := match seq with | some s => some s | Option.none => st.last_seq
    last_ts_ms := some snapshot.ts_ms }

/-- `OrderBookState.apply_change`: `size ≤ 0` removes the level,
otherwise overwrites it; `side == "BUY"` selects the bid book. -/
def OrderBookState.apply_change (st : OrderBookState) (side : String)
    (price size : ℚ) : OrderBookState :=
  if side = "BUY" then
    { st with bids := if size ≤ 0 then dictPop st.bids price
                      else dictSet st.bids price size }
  else
    { st with asks := if size ≤ 0 then dictPop st.asks price
                      else dictSet st.asks price size }

/-- Bid ordering used by `to_snapshot`: descending price
(`sort(key=price, reverse=True)` in the source, which is stable). -/
def bidLE (a b : ℚ × ℚ) : Prop := b.1 ≤ a.1

/-- Ask ordering used by `to_snapshot`: ascending price. -/
def askLE (a b : ℚ × ℚ) : Prop := a.1 ≤ b.1

instance : DecidableRel bidLE := fun a b => inferInstanceAs (Decidable (b.1 ≤ a.1))
instance : DecidableRel askLE := fun a b => inferInstanceAs (Decidable (a.1 ≤ b.1))

instance : IsTotal (ℚ × ℚ) bidLE := ⟨fun a b => le_total b.1 a.1⟩
instance : IsTrans (ℚ × ℚ) bidLE := ⟨fun _ _ _ h h' => le_trans h' h⟩
instance : IsTotal (ℚ × ℚ) askLE := ⟨fun a b => le_total a.1 b.1⟩
instance : IsTrans (ℚ × ℚ) askLE := ⟨fun _ _ _ h h' => le_trans h h'⟩

/-- `OrderBookState.to_snapshot`: rebuild a full snapshot from the dicts,
bids sorted descending by price, asks ascending; `ts_ms` falls back to 0. -/
def OrderBookState.to_snapshot (st : OrderBookState) : BookSnapshot :=
  { token_id := st.token_id
    bids := (st.bids.insertionSort bidLE).map (fun p => ⟨p.1, p.2⟩)
    asks := (st.asks.insertionSort askLE).map (fun p => ⟨p.1, p.2⟩)
    ts_ms := st.last_ts_ms.getD 0 }

/-- `OrderBookState.clear`: empty both books and forget `last_seq`. -/
def OrderBookState.clear (st : OrderBookState) : OrderBookState :=
  { st with bids := [], asks := [], last_seq := Option.none }

/-- `_sequence_gap(last_seq, next_seq)`. -/
def sequenceGap (last_seq next_seq : Option Int) : Bool × Option Int :=
  match next_seq with
  | Option.none => (false, Option.none)
  | some nxt =>
    match last_seq with
    | Option.none => (false, Option.none)
    | some last =>
      let expected := last + 1
      if nxt ≠ expected then (true, some expected) else (false, some expected)

/-- One raw item of a `price_changes`/`changes` array, as received after
JSON decoding: either an object (`{side|type, price|p, size|s|quantity}`,
each value already coerced by `_to_float`/`str`), a positional array
(`[price, size, side]`), or anything else (skipped by the parser). -/
inductive RawChange where
  | obj (side typ : Option String) (price p size s quantity : Option ℚ)
  | arr (price size : Option ℚ) (side : Option String)
  | malformed
deriving DecidableEq

/-- `_parse_price_changes`: keep only items whose upper-cased side is
`BUY`/`SELL` and whose price and size are both present. -/
def parsePriceChanges (items : List RawChange) : List (String × ℚ × ℚ) :=
  items.foldr
    (fun item acc =>
      match item with
      | .obj side typ price p size s quantity =>
        let sideStr := pyUpper ((pyOrStr side typ).getD "")
        let priceV := pyCoalesce price p
        let sizeV := pyCoalesce size (pyCoalesce s quantity)
        if sideStr = "BUY" ∨ sideStr = "SELL" then
          match priceV, sizeV with
          | some pr, some sz => (sideStr, pr, sz) :: acc
          | _, _ => acc
        else acc
      | .arr price size side =>
        let sideStr := pyUpper (side.getD "")
        if sideStr = "BUY" ∨ sideStr = "SELL" then
          match price, size with
          | some pr, some sz => (sideStr, pr, sz) :: acc
          | _, _ => acc
        else acc
      | .malformed => acc)
    []

/-- The fields of a feed payload dict that `apply_snapshot` /
`apply_price_change` read, each already run through the source's
extraction helpers: `token_id` is `_extract_token_id`'s result (first
present of the `asset_id`/… key cascade), `sequence` is
`_extract_sequence`'s parsed integer, `ts_ms` is `_extract_ts_ms`'s, and
`changes` is the raw `price_changes`/`changes` array. -/
structure Payload where
  token_id : Option String := Option.none
  sequence : Option Int := Option.none
  ts_ms : Option Int := Option.none
  changes : List RawChange := []
deriving DecidableEq

/-- The registry's `_books` dict. -/
abbrev Registry := List (String × OrderBookState)

/-- `OrderBookRegistry.apply_snapshot`. -/
def applySnapshot (books : Registry) (snapshot : BookSnapshot)
    (payload : Payload) : Registry × OrderBookUpdateResult :=
  let token_id := snapshot.token_id
  let seq := payload.sequence
  let state := (dictGet books token_id).getD
    { token_id := token_id, bids := [], asks := [] }
  let (resync_needed, expected) := sequenceGap state.last_seq seq
  if resync_needed then
    let state := state.clear
    (dictSet books token_id state,
      { token_id := some token_id, snapshot := Option.none,
        resync_needed := true, expected_seq := expected, received_seq := seq })
  else
    let state := state.apply_snapshot snapshot seq
    (dictSet books token_id state,
      { token_id := some token_id, snapshot := some snapshot })

/-- `OrderBookRegistry.apply_price_change`. -/
def applyPriceChange (books : Registry) (payload : Payload) :
    Registry × OrderBookUpdateResult :=
  match payload.token_id with
  | Option.none => (books, { token_id := Option.none, snapshot := Option.none })
  | some token_id =>
    match dictGet books token_id with
    | Option.none => (books, { token_id := some token_id, snapshot := Option.none })
    | some state =>
      let seq := payload.sequence
      let (resync_needed, expected) := sequenceGap state.last_seq seq
      if resync_needed then
        (dictSet books token_id state.clear,
          { token_id := some token_id, snapshot := Option.none,
            resync_needed := true, expected_seq := expected, received_seq := seq })
      else
        let changes := parsePriceChanges payload.changes
        if changes.isEmpty then
          (books, { token_id := some token_id, snapshot := Option.none })
        else
          let state := changes.foldl
            (fun st c => st.apply_change c.1 c.2.1 c.2.2) state
          let state := { state with
            last_seq := match seq with
              | some s => some s
              | Option.none => state.last_seq
            -- `_extract_ts_ms(payload) or state.last_ts_ms`: falsy-or, 0 falls back
            last_ts_ms := match payload.ts_ms with
              | some t => if t = 0 then state.last_ts_ms else some t
              | Option.none => state.last_ts_ms }
          (dictSet books token_id state,
            { token_id := some token_id, snapshot := some state.to_snapshot })

end OrderBook

/-- Looking up the key just written into an insertion-ordered dict
returns the written value. -/
theorem dictGet_dictSet {κ ν : Type} [DecidableEq κ] (d : List (κ × ν))
    (k : κ) (v : ν) : dictGet (dictSet d k v) k = some v := by
  induction d with
  | nil => simp [dictSet, dictGet]
  | cons hd tl ih =>
    by_cases hk : hd.1 = k
    · simp [dictSet, dictGet, hk]
    · by_cases ha : tl.any (fun p => p.1 = k)
      · have ih' := ih
        simp [dictSet, ha] at ih'
        simp [dictSet, dictGet, hk, ha] at ih' ⊢
        exact ih'
      · have ih' := ih
        simp [dictSet, ha] at ih'
        simp [dictSet, dictGet, hk, ha] at ih' ⊢
        exact ih'

/-- Every binding of `dictSet d k v` is the written pair or came from `d`. -/
theorem mem_dictSet {κ ν : Type} [DecidableEq κ] {d : List (κ × ν)}
    {k : κ} {v : ν} {p : κ × ν} (hp : p ∈ dictSet d k v) :
    p = (k, v) ∨ p ∈ d := by
  unfold dictSet at hp
  split at hp
  · obtain ⟨q, hq, hfq⟩ := List.mem_map.1 hp
    by_cases hqk : q.1 = k
    · left; rw [if_pos hqk] at hfq; exact hfq.symm
    · right; rw [if_neg hqk] at hfq; exact hfq ▸ hq
  · rcases List.mem_append.1 hp with h | h
    · right; exact h
    · left; simpa using h

/-- Every binding of `dictPop d k` came from `d`. -/
theorem mem_dictPop {κ ν : Type} [DecidableEq κ] {d : List (κ × ν)}
    {k : κ} {p : κ × ν} (hp : p ∈ dictPop d k) : p ∈ d :=
  List.mem_of_mem_filter hp

namespace OrderBook

/-- Evaluating `_sequence_gap` on a known `last_seq = s` and a received
`r ≠ s + 1` reports a gap with `expected = s + 1`. -/
theorem sequenceGap_of_ne {s r : Int} (hgap : r ≠ s + 1) :
    sequenceGap (some s) (some r) = (true, some (s + 1)) := by
  simp [sequenceGap, hgap]

/-- Evaluating `_sequence_gap` on a known `last_seq = s` and the expected
successor reports no gap. -/
theorem sequenceGap_succ (s : Int) :
    sequenceGap (some s) (some (s + 1)) = (false, some (s + 1)) := by
  simp [sequenceGap]

end OrderBook

/-- C2: for a token whose book has known `last_seq = s`, applying a
snapshot or a price change that carries sequence `r ≠ s + 1` clears the
book (the stored state becomes `st.clear`, with empty bids and asks),
does not install the update (`snapshot = none`), and reports
`resync_needed = true` with `expected_seq = s + 1`, `received_seq = r`. -/
theorem C2_sequence_gap_clears_book (books : OrderBook.Registry) (tok : String)
    (st : OrderBook.OrderBookState) (s r : Int)
    (snapshot : OrderBook.BookSnapshot) (payload : OrderBook.Payload)
    (hlook : dictGet books tok = some st)
    (hseq : st.last_seq = some s)
    (hsnap : snapshot.token_id = tok)
    (htok : payload.token_id = some tok)
    (hpseq : payload.sequence = some r)
    (hgap : r ≠ s + 1) :
    ((OrderBook.applySnapshot books snapshot payload).2 =
        ⟨some tok, Option.none, true, some (s + 1), some r⟩ ∧
      dictGet (OrderBook.applySnapshot books snapshot payload).1 tok =
        some st.clear ∧ st.clear.bids = [] ∧ st.clear.asks = []) ∧
    ((OrderBook.applyPriceChange books payload).2 =
        ⟨some tok, Option.none, true, some (s + 1), some r⟩ ∧
      dictGet (OrderBook.applyPriceChange books payload).1 tok =
        some st.clear) := by
  have hg : OrderBook.sequenceGap st.last_seq (some r) =
      (true, some (s + 1)) := by
    rw [hseq]; exact OrderBook.sequenceGap_of_ne hgap
  refine ⟨⟨?_, ?_, rfl, rfl⟩, ⟨?_, ?_⟩⟩
  · simp [OrderBook.applySnapshot, hsnap, hlook, hg, hpseq]
  · simp [OrderBook.applySnapshot, hsnap, hlook, hg, hpseq, dictGet_dictSet]
  · simp [OrderBook.applyPriceChange, htok, hlook, hg, hpseq]
  · simp [OrderBook.applyPriceChange, htok, hlook, hg, hpseq, dictGet_dictSet]

/-- Concrete registry for the C2 witness: one book for `"t1"` installed
by a snapshot with `seq = 1`. -/
def c2Snap1 : OrderBook.BookSnapshot := ⟨"t1", [⟨1, 10⟩], [⟨11/10, 5⟩], 1000⟩

/-- Payload carrying `sequence = 1` for the initial snapshot. -/
def c2Pay1 : OrderBook.Payload := ⟨some "t1", some 1, Option.none, []⟩

/-- Registry after the initial snapshot. -/
def c2Books1 : OrderBook.Registry := (OrderBook.applySnapshot [] c2Snap1 c2Pay1).1

/-- The installed state for `"t1"`: `last_seq = 1`. -/
def c2St1 : OrderBook.OrderBookState := ⟨"t1", [(1, 10)], [(11/10, 5)], some 1, some 1000⟩

/-- A price-change payload for `"t1"` carrying `sequence = 3`. -/
def c2Pay3 : OrderBook.Payload :=
  ⟨some "t1", some 3, Option.none,
    [.obj (some "BUY") Option.none (some 1) Option.none (some 5) Option.none Option.none]⟩

unseal Rat.mul Rat.inv Rat.add Rat.sub in
/-- Witness for C2, at the spec's own scenario: snapshot with `seq = 1`
followed by a price change with `seq = 3` yields `resync_needed = true`,
`expected = 2`, `received = 3`, and the stored state has empty books. -/
theorem C2_sequence_gap_clears_book_witness :
    ((OrderBook.applySnapshot c2Books1 c2Snap1 c2Pay3).2 =
        ⟨some "t1", Option.none, true, some 2, some 3⟩ ∧
      dictGet (OrderBook.applySnapshot c2Books1 c2Snap1 c2Pay3).1 "t1" =
        some c2St1.clear ∧ c2St1.clear.bids = [] ∧ c2St1.clear.asks = []) ∧
    ((OrderBook.applyPriceChange c2Books1 c2Pay3).2 =
        ⟨some "t1", Option.none, true, some 2, some 3⟩ ∧
      dictGet (OrderBook.applyPriceChange c2Books1 c2Pay3).1 "t1" =
        some c2St1.clear) :=
  C2_sequence_gap_clears_book c2Books1 "t1" c2St1 1 3 c2Snap1 c2Pay3
    (by decide) (by decide) rfl rfl rfl (by decide)

/-- C9: with an installed book at `last_seq = s`, a price change carrying
the expected sequence `s + 1` whose change list parses to no valid
entries returns `snapshot = none` with `resync_needed = false` and leaves
the registry — in particular `last_seq` — untouched, so a following
delta carrying `s + 2` is reported as a gap (`expected = s + 1`,
`received = s + 2`). -/
theorem C9_empty_delta_does_not_advance_seq (books : OrderBook.Registry)
    (tok : String) (st : OrderBook.OrderBookState) (s : Int)
    (payload payload2 : OrderBook.Payload)
    (hlook : dictGet books tok = some st)
    (hseq : st.last_seq = some s)
    (htok : payload.token_id = some tok)
    (hpseq : payload.sequence = some (s + 1))
    (hparse : OrderBook.parsePriceChanges payload.changes = [])
    (htok2 : payload2.token_id = some tok)
    (hpseq2 : payload2.sequence = some (s + 2)) :
    OrderBook.applyPriceChange books payload =
      (books, ⟨some tok, Option.none, false, Option.none, Option.none⟩) ∧
    ((OrderBook.applyPriceChange books payload2).2.resync_needed = true ∧
      (OrderBook.applyPriceChange books payload2).2.expected_seq = some (s + 1) ∧
      (OrderBook.applyPriceChange books payload2).2.received_seq = some (s + 2) ∧
      (OrderBook.applyPriceChange books payload2).2.snapshot = Option.none) := by
  have hg : OrderBook.sequenceGap st.last_seq (some (s + 1)) =
      (false, some (s + 1)) := by
    rw [hseq]; exact OrderBook.sequenceGap_succ s
  have hg2 : OrderBook.sequenceGap st.last_seq (some (s + 2)) =
      (true, some (s + 1)) := by
    rw [hseq]; exact OrderBook.sequenceGap_of_ne (by omega)
  constructor
  · simp [OrderBook.applyPriceChange, htok, hlook, hpseq, hg, hparse]
  · refine ⟨?_, ?_, ?_, ?_⟩ <;>
      simp [OrderBook.applyPriceChange, htok2, hlook, hg2, hpseq2]

/-- A payload at the expected sequence 2 whose items all fail the
side/price/size validation (`side = "HOLD"`, a priceless item, and a
malformed item). -/
def c9PayEmpty : OrderBook.Payload :=
  ⟨some "t1", some 2, Option.none,
    [.obj (some "HOLD") Option.none (some 1) Option.none (some 5) Option.none Option.none,
     .obj (some "BUY") Option.none Option.none Option.none (some 5) Option.none Option.none,
     .malformed]⟩

/-- A follow-up payload carrying sequence 3. -/
def c9Pay3 : OrderBook.Payload :=
  ⟨some "t1", some 3, Option.none,
    [.obj (some "SELL") Option.none (some (6/5)) Option.none (some 7) Option.none Option.none]⟩

unseal Rat.mul Rat.inv Rat.add Rat.sub in
/-- Witness for C9: after a snapshot with `seq = 1`, an all-invalid delta
at `seq = 2` is dropped without advancing `last_seq`, and the next delta
at `seq = 3` is reported as a gap with `expected = 2`. -/
theorem C9_empty_delta_does_not_advance_seq_witness :
    OrderBook.applyPriceChange c2Books1 c9PayEmpty =
      (c2Books1, ⟨some "t1", Option.none, false, Option.none, Option.none⟩) ∧
    ((OrderBook.applyPriceChange c2Books1 c9Pay3).2.resync_needed = true ∧
      (OrderBook.applyPriceChange c2Books1 c9Pay3).2.expected_seq = some 2 ∧
      (OrderBook.applyPriceChange c2Books1 c9Pay3).2.received_seq = some 3 ∧
      (OrderBook.applyPriceChange c2Books1 c9Pay3).2.snapshot = Option.none) :=
  C9_empty_delta_does_not_advance_seq c2Books1 "t1" c2St1 1 c9PayEmpty c9Pay3
    (by decide) (by decide) rfl rfl (by decide) rfl rfl

namespace OrderBook

/-- One operation against the order-book registry. -/
inductive BookOp where
  | snap (snapshot : BookSnapshot) (payload : Payload)
  | change (payload : Payload)

/-- Apply one operation to the registry's `_books` dict. -/
def applyOp (books : Registry) : BookOp → Registry
  | .snap s p => (applySnapshot books s p).1
  | .change p => (applyPriceChange books p).1

/-- Run a sequence of operations against a fresh registry. -/
def runOps (ops : List BookOp) : Registry := ops.foldl applyOp []

/-- All levels of one book dict have positive size. -/
def levelsPositive (d : List (ℚ × ℚ)) : Bool := d.all (fun p => decide (0 < p.2))

/-- All levels retained by a token's state have positive size. -/
def statePositive (st : OrderBookState) : Bool :=
  levelsPositive st.bids && levelsPositive st.asks

/-- All levels retained anywhere in the registry have positive size. -/
def registryPositive (books : Registry) : Bool :=
  books.all (fun e => statePositive e.2)

/-- All levels carried by an incoming snapshot have positive size. -/
def snapshotPositive (s : BookSnapshot) : Bool :=
  s.bids.all (fun l => decide (0 < l.size)) &&
    s.asks.all (fun l => decide (0 < l.size))

/-- A `BookOp` only carries snapshots with positive sizes. -/
def opSnapshotsPositive : BookOp → Bool
  | .snap s _ => snapshotPositive s
  | .change _ => true

theorem levelsPositive_dictSet {d : List (ℚ × ℚ)} {k v : ℚ}
    (hd : levelsPositive d = true) (hv : 0 < v) :
    levelsPositive (dictSet d k v) = true := by
  simp only [levelsPositive, List.all_eq_true] at *
  intro p hp
  rcases mem_dictSet hp with h | h
  · subst h; simpa using hv
  · exact hd p h

theorem levelsPositive_dictPop {d : List (ℚ × ℚ)} {k : ℚ}
    (hd : levelsPositive d = true) : levelsPositive (dictPop d k) = true := by
  simp only [levelsPositive, List.all_eq_true] at *
  exact fun p hp => hd p (mem_dictPop hp)

theorem levelsPositive_fromLevels (levels : List BookLevel)
    (h : ∀ l ∈ levels, 0 < l.size) :
    levelsPositive (levels.foldl (fun d l => dictSet d l.price l.size) []) = true := by
  suffices H : ∀ d, levelsPositive d = true →
      levelsPositive (levels.foldl (fun d l => dictSet d l.price l.size) d) = true by
    exact H [] rfl
  induction levels with
  | nil => intro d hd; simpa using hd
  | cons hd tl ih =>
    intro d hdpos
    have hhd : 0 < hd.size := h hd (List.mem_cons_self hd tl)
    exact ih (fun l hl => h l (List.mem_cons_of_mem hd hl)) _
      (levelsPositive_dictSet hdpos hhd)

theorem statePositive_apply_change {st : OrderBookState} (side : String)
    (price size : ℚ) (hst : statePositive st = true) :
    statePositive (st.apply_change side price size) = true := by
  simp only [statePositive, Bool.and_eq_true] at hst
  by_cases hside : side = "BUY" <;> by_cases hsz : size ≤ 0 <;>
    simp only [OrderBookState.apply_change, hside, hsz, if_true, if_false,
      ite_true, ite_false, statePositive, Bool.and_eq_true] <;>
    refine ⟨?_, ?_⟩ <;>
    first
      | exact hst.1 | exact hst.2
      | exact levelsPositive_dictPop hst.1
      | exact levelsPositive_dictPop hst.2
      | exact levelsPositive_dictSet hst.1 (by exact lt_of_not_le hsz)
      | exact levelsPositive_dictSet hst.2 (by exact lt_of_not_le hsz)

theorem statePositive_apply_snapshot {st : OrderBookState}
    {snapshot : BookSnapshot} (seq : Option Int)
    (hs : snapshotPositive snapshot = true) :
    statePositive (st.apply_snapshot snapshot seq) = true := by
  simp only [snapshotPositive, Bool.and_eq_true, List.all_eq_true] at hs
  simp only [statePositive, OrderBookState.apply_snapshot, Bool.and_eq_true]
  constructor
  · exact levelsPositive_fromLevels _ (fun l hl => by simpa using hs.1 l hl)
  · exact levelsPositive_fromLevels _ (fun l hl => by simpa using hs.2 l hl)

theorem statePositive_clear (st : OrderBookState) :
    statePositive st.clear = true := by
  simp [statePositive, OrderBookState.clear, levelsPositive]

theorem registryPositive_dictSet {books : Registry} {k : String}
    {v : OrderBookState} (hb : registryPositive books = true)
    (hv : statePositive v = true) :
    registryPositive (dictSet books k v) = true := by
  simp only [registryPositive, List.all_eq_true] at *
  intro e he
  rcases mem_dictSet he with h | h
  · subst h; exact hv
  · exact hb e h

theorem registryPositive_of_mem {books : Registry}
    (hb : registryPositive books = true) {tok : String} {st : OrderBookState}
    (h : dictGet books tok = some st) : statePositive st = true := by
  simp only [registryPositive, List.all_eq_true] at hb
  simp only [dictGet, Option.map_eq_some'] at h
  obtain ⟨p, hp, hps⟩ := h
  have := hb p (List.mem_of_find?_eq_some hp)
  rwa [hps] at this

theorem registryPositive_applyOp {books : Registry} (op : BookOp)
    (hb : registryPositive books = true) (hop : opSnapshotsPositive op = true) :
    registryPositive (applyOp books op) = true := by
  cases op with
  | snap s p =>
    simp only [applyOp, applySnapshot]
    set st := (dictGet books s.token_id).getD
      { token_id := s.token_id, bids := [], asks := [] } with hst
    split
    · exact registryPositive_dictSet hb (statePositive_clear st)
    · exact registryPositive_dictSet hb (statePositive_apply_snapshot _ hop)
  | change p =>
    have hfoldPos : ∀ (cs : List (String × ℚ × ℚ)) (s0 : OrderBookState),
        statePositive s0 = true →
        statePositive
          (cs.foldl (fun st c => st.apply_change c.1 c.2.1 c.2.2) s0) = true := by
      intro cs
      induction cs with
      | nil => intro s0 h0; simpa using h0
      | cons c tl ih =>
        intro s0 h0
        exact ih _ (statePositive_apply_change c.1 c.2.1 c.2.2 h0)
    simp only [applyOp, applyPriceChange]
    split
    · exact hb
    · split
      · exact hb
      · next st hget =>
        have hstp : statePositive st = true := registryPositive_of_mem hb hget
        split
        · exact registryPositive_dictSet hb (statePositive_clear st)
        · split
          · exact hb
          · refine registryPositive_dictSet hb ?_
            have hfold := hfoldPos (parsePriceChanges p.changes) st hstp
            simp only [statePositive, Bool.and_eq_true] at hfold ⊢
            exact hfold

theorem registryPositive_runOps (ops : List BookOp)
    (hpos : ops.all opSnapshotsPositive = true) :
    registryPositive (runOps ops) = true := by
  suffices H : ∀ books, registryPositive books = true →
      registryPositive (ops.foldl applyOp books) = true by
    exact H [] rfl
  induction ops with
  | nil => intro books hb; simpa using hb
  | cons op tl ih =>
    simp only [List.all_cons, Bool.and_eq_true] at hpos
    intro books hb
    exact ih hpos.2 _ (registryPositive_applyOp op hb hpos.1)

theorem to_snapshot_sorted (st : OrderBookState) :
    st.to_snapshot.bids.Pairwise (fun a b => b.price ≤ a.price) ∧
      st.to_snapshot.asks.Pairwise (fun a b => a.price ≤ b.price) := by
  constructor
  · have := List.sorted_insertionSort bidLE st.bids
    simp only [OrderBookState.to_snapshot, List.pairwise_map]
    exact this
  · have := List.sorted_insertionSort askLE st.asks
    simp only [OrderBookState.to_snapshot, List.pairwise_map]
    exact this

end OrderBook

/-- C3 (amended): (a) provided every snapshot fed to `apply_snapshot`
carries only positive sizes, every level retained in the registry after
any sequence of `apply_snapshot`/`apply_price_change` operations has
`size > 0` (deltas by themselves can never introduce a non-positive
level: `apply_change` removes on `size ≤ 0`); (b) every snapshot
*rebuilt* by the registry — i.e. returned by `apply_price_change` — has
bids sorted non-increasing and asks non-decreasing in price.
(`apply_snapshot` returns its input snapshot verbatim, so its output is
only as sorted and as positive as its input; see the counterexample.) -/
theorem C3_book_invariants_amended :
    (∀ ops : List OrderBook.BookOp,
      ops.all OrderBook.opSnapshotsPositive = true →
      OrderBook.registryPositive (OrderBook.runOps ops) = true) ∧
    (∀ (books : OrderBook.Registry) (payload : OrderBook.Payload)
      (snap : OrderBook.BookSnapshot),
      (OrderBook.applyPriceChange books payload).2.snapshot = some snap →
      snap.bids.Pairwise (fun a b => b.price ≤ a.price) ∧
        snap.asks.Pairwise (fun a b => a.price ≤ b.price)) := by
  constructor
  · exact OrderBook.registryPositive_runOps
  · intro books payload snap h
    simp only [OrderBook.applyPriceChange] at h
    split at h
    · simp at h
    · split at h
      · simp at h
      · split at h
        · simp at h
        · split at h
          · simp at h
          · simp only [Option.some.injEq] at h
            subst h
            exact OrderBook.to_snapshot_sorted _

/-- Snapshot used to refute C3 as stated: one bid level with `size = 0`
and bids listed in increasing price order. -/
def c3BadSnap : OrderBook.BookSnapshot := ⟨"t2", [⟨1, 0⟩, ⟨2, 3⟩], [], 500⟩

/-- An empty payload (no sequence, no changes). -/
def c3NoPay : OrderBook.Payload := ⟨Option.none, Option.none, Option.none, []⟩

/-- Counterexample to C3 as stated: `apply_snapshot` retains a level with
`size = 0` in the registry state, and the snapshot it returns is its
input verbatim, whose bids are not non-increasing in price. -/
theorem C3_book_invariants_counterexample :
    OrderBook.registryPositive
      (OrderBook.runOps [OrderBook.BookOp.snap c3BadSnap c3NoPay]) = false ∧
    (OrderBook.applySnapshot [] c3BadSnap c3NoPay).2.snapshot = some c3BadSnap ∧
    ¬ c3BadSnap.bids.Pairwise (fun a b => b.price ≤ a.price) := by
  refine ⟨by decide, by decide, ?_⟩
  intro h
  have := List.rel_of_pairwise_cons h (List.mem_singleton.2 rfl)
  simp at this

/-- A valid delta at the expected sequence 2 adding one ask level. -/
def c3Pay2 : OrderBook.Payload :=
  ⟨some "t1", some 2, Option.none,
    [.obj (some "SELL") Option.none (some (6/5)) Option.none (some 7) Option.none Option.none]⟩

/-- The snapshot the registry rebuilds for the witness run. -/
def c3SnapOut : OrderBook.BookSnapshot :=
  ⟨"t1", [⟨1, 10⟩], [⟨11/10, 5⟩, ⟨6/5, 7⟩], 1000⟩

unseal Rat.mul Rat.inv Rat.add Rat.sub in
/-- Witness for C3 (amended): a positive-size snapshot keeps the registry
positive, and a rebuilt snapshot comes out sorted on both sides. -/
theorem C3_book_invariants_amended_witness :
    OrderBook.registryPositive
      (OrderBook.runOps [OrderBook.BookOp.snap c2Snap1 c2Pay1]) = true ∧
    (c3SnapOut.bids.Pairwise (fun a b => b.price ≤ a.price) ∧
      c3SnapOut.asks.Pairwise (fun a b => a.price ≤ b.price)) :=
  ⟨C3_book_invariants_amended.1 [OrderBook.BookOp.snap c2Snap1 c2Pay1] (by decide),
    C3_book_invariants_amended.2 c2Books1 c3Pay2 c3SnapOut (by decide)⟩

/-- `domain/models.py::OutcomeToken`. -/
structure OutcomeToken where
  token_id : String
  side : Option String := Option.none
deriving DecidableEq

/-- `domain/models.py::Market`. -/
structure Market where
  market_id : String
  question : String
  event_id : Option String := Option.none
  category : Option String := Option.none
  enable_orderbook : Option Bool := Option.none
  active : Bool := true
  closed : Bool := false
  resolved : Bool := false
  end_ts : Option Int := Option.none
  liquidity : Option ℚ := Option.none
  volume_24h : Option ℚ := Option.none
  token_ids : List String := []
  outcomes : List OutcomeToken := []
  topic_key : Option String := Option.none
deriving DecidableEq

/-- Remove consecutive duplicate spaces. -/
def squeezeSpaces : List Char → List Char
  | [] => []
  | [c] => [c]
  | a :: b :: t =>
    if a = ' ' ∧ b = ' ' then squeezeSpaces (b :: t)
    else a :: squeezeSpaces (b :: t)

/-- Python `x in s` for strings: substring containment. -/
def pyInStr (needle hay : String) : Bool := decide (needle.data <:+: hay.data)

/-- Keep the first occurrence of every element, in order — the key order
of a Python dict built by `setdefault` insertion. -/
def dedupFirstAux {α : Type} [DecidableEq α] (seen : List α) : List α → List α
  | [] => []
  | a :: t =>
    if a ∈ seen then dedupFirstAux seen t else a :: dedupFirstAux (a :: seen) t

/-- First-occurrence dedup of a list. -/
def dedupFirst {α : Type} [DecidableEq α] (l : List α) : List α :=
  dedupFirstAux [] l

namespace Selection

/-- `selection.py::normalize_topic`: lowercase, collapse each run of
non-`[a-z0-9]` characters to one space, trim (ASCII; the repository's
topics are ASCII questions). -/
def normalize_topic (text : String) : String :=
  let lowered := text.data.map Char.toLower
  let replaced := lowered.map
    (fun c => if ('a' ≤ c ∧ c ≤ 'z') ∨ ('0' ≤ c ∧ c ≤ '9') then c else ' ')
  let squeezed := squeezeSpaces replaced
  String.mk (((squeezed.dropWhile (· = ' ')).reverse.dropWhile (· = ' ')).reverse)

/-- `selection.py::assign_topic_keys` on one market: set `topic_key` from
the question when it is falsy (`None` or `""`). -/
def assignTopicKey (m : Market) : Market :=
  if m.topic_key.getD "" = "" then
    { m with topic_key := some (normalize_topic m.question) }
  else m

/-- `selection.py::assign_topic_keys` (the source mutates in place; we
return the updated list). -/
def assign_topic_keys (markets : List Market) : List Market :=
  markets.map assignTopicKey

/-- `selection.py::_priority_value`: `liquidity`/`volume_24h` negated
(larger first), `end_ts` ascending with `None → 2^63`, unknown keys 0. -/
def priorityValue (m : Market) (key : String) : ℚ :=
  if key = "liquidity" then -(m.liquidity.getD 0)
  else if key = "volume_24h" then -(m.volume_24h.getD 0)
  else if key = "end_ts" then ((m.end_ts.getD (2 ^ 63) : Int) : ℚ)
  else 0

/-- The sort key tuple `tuple(_priority_value(m, k) for k in keys)`. -/
def priorityKey (m : Market) (keys : List String) : List ℚ :=
  keys.map (priorityValue m)

/-- Python tuple `≤`: lexicographic, a strict prefix is smaller. -/
def lexLeB : List ℚ → List ℚ → Bool
  | [], _ => true
  | _ :: _, [] => false
  | a :: as, b :: bs =>
    if a < b then true else if b < a then false else lexLeB as bs

/-- The sort relation used by both selection functions. -/
def keyLE (keys : List String) (m1 m2 : Market) : Prop :=
  lexLeB (priorityKey m1 keys) (priorityKey m2 keys) = true

instance (keys : List String) : DecidableRel (keyLE keys) :=
  fun m1 m2 => inferInstanceAs (Decidable (_ = true))

/-- The group key `market.topic_key or market.market_id` (falsy-or). -/
def groupKey (m : Market) : String :=
  match m.topic_key with
  | some t => if t = "" then m.market_id else t
  | Option.none => m.market_id

/-- `selection.py::select_primary_markets`: assign topic keys, group by
`groupKey` in first-appearance order (a Python dict of lists), stably
sort each group by the priority keys, keep the first `max_per_topic` of
each group, and concatenate in group order. -/
def select_primary_markets (markets : List Market) (priority : List String)
    (max_per_topic : Nat) : List Market :=
  let ms := assign_topic_keys markets
  let ks := dedupFirst (ms.map groupKey)
  ks.flatMap (fun k =>
    ((ms.filter (fun m => groupKey m = k)).insertionSort (keyLE priority)).take
      max_per_topic)

/-- `selection.py::select_top_markets`: drop markets below
`min_liquidity` (null → 0), apply the allow/block keyword filters on the
lowercased question, stably sort by `hot_sort`, truncate to `top_k`. -/
def select_top_markets (markets : List Market) (top_k : Nat)
    (hot_sort : List String) (min_liquidity : Option ℚ)
    (keyword_allow keyword_block : List String) : List Market :=
  let allow := keyword_allow.map pyLower
  let block := keyword_block.map pyLower
  let filtered := markets.filter (fun m =>
    (match min_liquidity with
      | some ml => decide (¬ m.liquidity.getD 0 < ml)
      | Option.none => true) &&
    (allow.isEmpty || allow.any (fun kw => pyInStr kw (pyLower m.question))) &&
    !(!block.isEmpty && block.any (fun kw => pyInStr kw (pyLower m.question))))
  (filtered.insertionSort (keyLE hot_sort)).take top_k

end Selection

namespace Selection

theorem lexLeB_total : ∀ x y : List ℚ, lexLeB x y = true ∨ lexLeB y x = true
  | [], _ => Or.inl rfl
  | _ :: _, [] => Or.inr rfl
  | a :: as, b :: bs => by
    by_cases hab : a < b
    · left; simp [lexLeB, hab]
    · by_cases hba : b < a
      · right; simp [lexLeB, hba]
      · rcases lexLeB_total as bs with h | h
        · left; simp [lexLeB, hab, hba, h]
        · right; simp [lexLeB, hab, hba, h]

theorem lexLeB_trans : ∀ x y z : List ℚ, lexLeB x y = true → lexLeB y z = true →
    lexLeB x z = true
  | [], _, z, _, _ => rfl
  | _ :: _, [], _, h, _ => by simp [lexLeB] at h
  | _ :: _, _ :: _, [], _, h2 => by simp [lexLeB] at h2
  | a :: as, b :: bs, c :: cs, h1, h2 => by
    by_cases hab : a < b
    · by_cases hbc : b < c
      · simp [lexLeB, lt_trans hab hbc]
      · by_cases hcb : c < b
        · simp [lexLeB, hbc, hcb] at h2
        · have hbc' : b = c := le_antisymm (not_lt.1 hcb) (not_lt.1 hbc)
          simp [lexLeB, hbc' ▸ hab]
    · by_cases hba : b < a
      · simp [lexLeB, hab, hba] at h1
      · have hab' : a = b := le_antisymm (not_lt.1 hba) (not_lt.1 hab)
        by_cases hbc : b < c
        · simp [lexLeB, hab' ▸ hbc]
        · by_cases hcb : c < b
          · simp [lexLeB, hbc, hcb] at h2
          · have hbc' : b = c := le_antisymm (not_lt.1 hcb) (not_lt.1 hbc)
            simp only [lexLeB, hab, hba, if_false] at h1
            simp only [lexLeB, hbc, hcb, if_false] at h2
            have hac : ¬ a < c := hab' ▸ hbc' ▸ hbc
            have hca : ¬ c < a := hab' ▸ hbc' ▸ hcb
            simp [lexLeB, hac, hca, lexLeB_trans as bs cs h1 h2]

instance (keys : List String) : IsTotal Market (keyLE keys) :=
  ⟨fun a b => lexLeB_total (priorityKey a keys) (priorityKey b keys)⟩

instance (keys : List String) : IsTrans Market (keyLE keys) :=
  ⟨fun a b c => lexLeB_trans (priorityKey a keys) (priorityKey b keys)
    (priorityKey c keys)⟩

theorem select_top_markets_idem (markets : List Market) (top_k : Nat)
    (hot_sort : List String) (min_liquidity : Option ℚ)
    (keyword_allow keyword_block : List String) :
    select_top_markets
      (select_top_markets markets top_k hot_sort min_liquidity keyword_allow
        keyword_block) top_k hot_sort min_liquidity keyword_allow
      keyword_block =
    select_top_markets markets top_k hot_sort min_liquidity keyword_allow
      keyword_block := by
  unfold select_top_markets
  simp only []
  generalize hpred : (fun m : Market =>
    (match min_liquidity with
      | some ml => decide (¬ m.liquidity.getD 0 < ml)
      | Option.none => true) &&
    ((keyword_allow.map pyLower).isEmpty ||
      (keyword_allow.map pyLower).any
        (fun kw => pyInStr kw (pyLower m.question))) &&
    !(!(keyword_block.map pyLower).isEmpty &&
      (keyword_block.map pyLower).any
        (fun kw => pyInStr kw (pyLower m.question)))) = pred
  have h1 : List.filter pred
      ((List.insertionSort (keyLE hot_sort) (List.filter pred markets)).take
        top_k) =
      (List.insertionSort (keyLE hot_sort) (List.filter pred markets)).take
        top_k := by
    rw [List.filter_eq_self]
    intro a ha
    exact List.of_mem_filter
      ((List.mem_insertionSort _).1 (List.mem_of_mem_take ha))
  rw [h1]
  have hsorted : List.Pairwise (keyLE hot_sort)
      ((List.insertionSort (keyLE hot_sort) (List.filter pred markets)).take
        top_k) :=
    List.Pairwise.sublist (List.take_sublist _ _)
      (List.sorted_insertionSort (keyLE hot_sort) _)
  rw [List.Sorted.insertionSort_eq hsorted, List.take_take]
  simp

theorem mem_dedupFirstAux {α : Type} [DecidableEq α] {x : α} :
    ∀ {l seen : List α}, x ∈ dedupFirstAux seen l ↔ x ∈ l ∧ x ∉ seen := by
  intro l
  induction l with
  | nil => intro seen; simp [dedupFirstAux]
  | cons a t ih =>
    intro seen
    by_cases ha : a ∈ seen
    · simp only [dedupFirstAux, ha, if_true, ih, List.mem_cons]
      constructor
      · rintro ⟨hx, hs⟩; exact ⟨Or.inr hx, hs⟩
      · rintro ⟨hx | hx, hs⟩
        · exact absurd (hx ▸ ha) hs
        · exact ⟨hx, hs⟩
    · simp only [dedupFirstAux, ha, if_false, List.mem_cons, ih]
      constructor
      · rintro (hx | ⟨hx, hs⟩)
        · exact ⟨Or.inl hx, hx ▸ ha⟩
        · exact ⟨Or.inr hx, fun hmem => hs (Or.inr hmem)⟩
      · rintro ⟨hx | hx, hs⟩
        · exact Or.inl hx
        · by_cases hxa : x = a
          · exact Or.inl hxa
          · exact Or.inr ⟨hx, fun hc => hc.elim hxa hs⟩

theorem nodup_dedupFirstAux {α : Type} [DecidableEq α] :
    ∀ (l seen : List α), (dedupFirstAux seen l).Nodup := by
  intro l
  induction l with
  | nil => intro seen; simp [dedupFirstAux]
  | cons a t ih =>
    intro seen
    by_cases ha : a ∈ seen
    · simpa [dedupFirstAux, ha] using ih seen
    · simp only [dedupFirstAux, ha, if_false, List.nodup_cons]
      refine ⟨fun hmem => ?_, ih _⟩
      exact (mem_dedupFirstAux.1 hmem).2 (List.mem_cons_self a seen)

theorem dedupFirstAux_congr_seen {α : Type} [DecidableEq α] :
    ∀ (l s₁ s₂ : List α), (∀ x ∈ l, x ∈ s₁ ↔ x ∈ s₂) →
      dedupFirstAux s₁ l = dedupFirstAux s₂ l := by
  intro l
  induction l with
  | nil => intro s₁ s₂ _; rfl
  | cons a t ih =>
    intro s₁ s₂ h
    have ha := h a (List.mem_cons_self a t)
    by_cases h1 : a ∈ s₁
    · simp only [dedupFirstAux, h1, ha.1 h1, if_true]
      exact ih s₁ s₂ (fun x hx => h x (List.mem_cons_of_mem a hx))
    · have h2 : a ∉ s₂ := fun hmem => h1 (ha.2 hmem)
      simp only [dedupFirstAux, h1, h2, if_false]
      refine congrArg (List.cons a) (ih (a :: s₁) (a :: s₂) (fun x hx => ?_))
      simp only [List.mem_cons]
      exact or_congr Iff.rfl (h x (List.mem_cons_of_mem a hx))

theorem dedupFirstAux_append {α : Type} [DecidableEq α] :
    ∀ (l₁ l₂ seen : List α),
      dedupFirstAux seen (l₁ ++ l₂) =
        dedupFirstAux seen l₁ ++ dedupFirstAux (l₁ ++ seen) l₂ := by
  intro l₁
  induction l₁ with
  | nil => intro l₂ seen; simp [dedupFirstAux]
  | cons a t ih =>
    intro l₂ seen
    by_cases ha : a ∈ seen
    · have hseen : dedupFirstAux (t ++ seen) l₂ =
          dedupFirstAux (a :: (t ++ seen)) l₂ :=
        dedupFirstAux_congr_seen l₂ _ _ (fun x _ => by
          simp only [List.mem_append, List.mem_cons]
          constructor
          · rintro (hx | hx)
            · exact Or.inr (Or.inl hx)
            · exact Or.inr (Or.inr hx)
          · rintro (hx | hx | hx)
            · exact Or.inr (hx ▸ ha)
            · exact Or.inl hx
            · exact Or.inr hx)
      have hstep := ih l₂ seen
      simp only [List.cons_append, dedupFirstAux, ha, if_true, List.append_eq]
      rw [hstep, hseen]
    · have hseen : dedupFirstAux (t ++ (a :: seen)) l₂ =
          dedupFirstAux (a :: (t ++ seen)) l₂ :=
        dedupFirstAux_congr_seen l₂ _ _ (fun x _ => by
          simp only [List.mem_append, List.mem_cons]; tauto)
      have hstep := ih l₂ (a :: seen)
      simp only [List.cons_append, dedupFirstAux, ha, if_false, List.append_eq]
      rw [hstep, hseen]

theorem dedupFirstAux_replicate {α : Type} [DecidableEq α] :
    ∀ (n : Nat) (k : α) (seen : List α),
      dedupFirstAux seen (List.replicate n k) =
        if n = 0 ∨ k ∈ seen then [] else [k] := by
  intro n
  induction n with
  | zero => intro k seen; simp [dedupFirstAux]
  | succ n ih =>
    intro k seen
    by_cases hk : k ∈ seen
    · simp [List.replicate_succ, dedupFirstAux, hk, ih]
    · simp [List.replicate_succ, dedupFirstAux, hk, ih]

theorem flatMap_congr_mem {α β : Type} {l : List β} {f g : β → List α}
    (h : ∀ a ∈ l, f a = g a) : l.flatMap f = l.flatMap g := by
  induction l with
  | nil => rfl
  | cons a t ih =>
    simp only [List.flatMap_cons, h a (List.mem_cons_self a t)]
    exact congrArg _ (ih (fun x hx => h x (List.mem_cons_of_mem a hx)))

theorem flatMap_filter_not_isEmpty {α β : Type} (ks : List β) (B : β → List α) :
    (ks.filter (fun k => !(B k).isEmpty)).flatMap B = ks.flatMap B := by
  induction ks with
  | nil => rfl
  | cons k t ih =>
    by_cases hk : (B k).isEmpty
    · have : B k = [] := List.isEmpty_iff.1 hk
      simp [List.filter_cons, hk, this, ih]
    · simp [List.filter_cons, hk, ih]

theorem dedupFirst_flatMap_blocks {α β : Type} [DecidableEq β] :
    ∀ (ks : List β) (B : β → List α) (key : α → β), ks.Nodup →
      (∀ k ∈ ks, ∀ m ∈ B k, key m = k) →
      dedupFirst ((ks.flatMap B).map key) =
        ks.filter (fun k => !(B k).isEmpty) := by
  intro ks
  induction ks with
  | nil => intro B key _ _; rfl
  | cons k t ih =>
    intro B key hnd hB
    have hndt := (List.nodup_cons.1 hnd).2
    have hkt : k ∉ t := (List.nodup_cons.1 hnd).1
    have hrepl : (B k).map key = List.replicate (B k).length k := by
      have : ∀ x ∈ (B k).map key, x = k := by
        intro x hx
        obtain ⟨m, hm, hxm⟩ := List.mem_map.1 hx
        exact hxm ▸ hB k (List.mem_cons_self k t) m hm
      simpa using List.eq_replicate_of_mem this
    have hrest : ∀ x ∈ (t.flatMap B).map key, x ∈ t := by
      intro x hx
      obtain ⟨m, hm, hxm⟩ := List.mem_map.1 hx
      obtain ⟨j, hj, hmj⟩ := List.mem_flatMap.1 hm
      exact hxm ▸ (hB j (List.mem_cons_of_mem k hj) m hmj) ▸ hj
    have hmain : dedupFirst (((k :: t).flatMap B).map key) =
        (if (B k).length = 0 ∨ (k : β) ∈ ([] : List β) then ([] : List β)
          else [k]) ++ dedupFirst ((t.flatMap B).map key) := by
      simp only [List.flatMap_cons, List.map_append, dedupFirst,
        dedupFirstAux_append, hrepl, dedupFirstAux_replicate]
      refine congrArg _ (dedupFirstAux_congr_seen _ _ _ (fun x hx => ?_))
      have hxt := hrest x hx
      have hxk : x ≠ k := fun hxk => hkt (hxk ▸ hxt)
      simp [List.mem_replicate, hxk]
    rw [hmain, ih B key hndt (fun j hj => hB j (List.mem_cons_of_mem k hj))]
    by_cases hlen : (B k).length = 0
    · have : (B k).isEmpty = true := by
        rw [List.isEmpty_iff, ← List.length_eq_zero]; exact hlen
      simp [List.filter_cons, this, hlen]
    · have : (B k).isEmpty = false := by
        rw [List.isEmpty_eq_false]
        exact fun h => hlen (by rw [h]; rfl)
      simp [List.filter_cons, this, hlen]

theorem filter_flatMap_blocks {α β : Type} [DecidableEq α] [DecidableEq β] :
    ∀ (ks : List β) (B : β → List α) (key : α → β) (k : β), ks.Nodup →
      (∀ j ∈ ks, ∀ m ∈ B j, key m = j) → k ∈ ks →
      (ks.flatMap B).filter (fun m => key m = k) = B k := by
  intro ks
  induction ks with
  | nil => intro B key k _ _ hk; cases hk
  | cons j t ih =>
    intro B key k hnd hB hk
    have hndt := (List.nodup_cons.1 hnd).2
    have hjt : j ∉ t := (List.nodup_cons.1 hnd).1
    simp only [List.flatMap_cons, List.filter_append]
    rcases List.mem_cons.1 hk with hkj | hkt
    · subst hkj
      have h1 : (B k).filter (fun m => key m = k) = B k := by
        rw [List.filter_eq_self]
        intro m hm
        simpa using hB k (List.mem_cons_self k t) m hm
      have h2 : (t.flatMap B).filter (fun m => key m = k) = [] := by
        rw [List.filter_eq_nil_iff]
        intro m hm
        obtain ⟨i, hi, hmi⟩ := List.mem_flatMap.1 hm
        have := hB i (List.mem_cons_of_mem k hi) m hmi
        simp only [decide_eq_true_eq, this]
        exact fun hik => hjt (hik ▸ hi)
      rw [h1, h2, List.append_nil]
    · have hkj : k ≠ j := fun h => hjt (h ▸ hkt)
      have h1 : (B j).filter (fun m => key m = k) = [] := by
        rw [List.filter_eq_nil_iff]
        intro m hm
        have := hB j (List.mem_cons_self j t) m hm
        simp only [decide_eq_true_eq, this]
        exact fun hjk => hkj hjk.symm
      rw [h1, List.nil_append]
      exact ih B key k hndt (fun i hi => hB i (List.mem_cons_of_mem j hi)) hkt

theorem assignTopicKey_idem (m : Market) :
    assignTopicKey (assignTopicKey m) = assignTopicKey m := by
  unfold assignTopicKey
  by_cases h : m.topic_key.getD "" = ""
  · simp only [h, if_true]
    by_cases h2 : normalize_topic m.question = "" <;> simp [h2]
  · simp [h]

theorem select_primary_markets_idem (markets : List Market)
    (priority : List String) (mpt : Nat) :
    select_primary_markets (select_primary_markets markets priority mpt)
      priority mpt = select_primary_markets markets priority mpt := by
  unfold select_primary_markets
  simp only []
  set ms := assign_topic_keys markets with hms
  set ks := dedupFirst (ms.map groupKey) with hks
  set B := fun k =>
    ((ms.filter (fun m => groupKey m = k)).insertionSort (keyLE priority)).take
      mpt with hB
  have houtB : (ks.flatMap fun k =>
      ((ms.filter (fun m => groupKey m = k)).insertionSort
        (keyLE priority)).take mpt) = ks.flatMap B := rfl
  rw [houtB]
  -- every selected market is an `assignTopicKey` image, so re-assigning
  -- topic keys is the identity on the output
  have hmemB : ∀ k, ∀ m ∈ B k, m ∈ ms := by
    intro k m hm
    exact List.mem_of_mem_filter
      ((List.mem_insertionSort _).1 (List.mem_of_mem_take hm))
  have hA : assign_topic_keys (ks.flatMap B) = ks.flatMap B := by
    unfold assign_topic_keys
    have : ∀ m ∈ ks.flatMap B, assignTopicKey m = m := by
      intro m hm
      obtain ⟨k, _, hmk⟩ := List.mem_flatMap.1 hm
      obtain ⟨m0, _, hm0⟩ := List.mem_map.1 (hmemB k m hmk)
      rw [← hm0]
      exact assignTopicKey_idem m0
    calc (ks.flatMap B).map assignTopicKey
        = (ks.flatMap B).map id := List.map_congr_left this
      _ = ks.flatMap B := List.map_id _
  rw [hA]
  have hndks : ks.Nodup := nodup_dedupFirstAux _ _
  have hkeyB : ∀ k ∈ ks, ∀ m ∈ B k, groupKey m = k := by
    intro k _ m hm
    have := List.of_mem_filter
      ((List.mem_insertionSort _).1 (List.mem_of_mem_take hm))
    simpa using this
  have hkeys : dedupFirst ((ks.flatMap B).map groupKey) =
      ks.filter (fun k => !(B k).isEmpty) :=
    dedupFirst_flatMap_blocks ks B groupKey hndks hkeyB
  rw [hkeys]
  have hsortTakeB : ∀ k,
      ((B k).insertionSort (keyLE priority)).take mpt = B k := by
    intro k
    have hsorted : List.Pairwise (keyLE priority) (B k) :=
      List.Pairwise.sublist (List.take_sublist _ _)
        (List.sorted_insertionSort (keyLE priority) _)
    rw [List.Sorted.insertionSort_eq hsorted, List.take_take]
    simp [hB]
  have hfilter : ∀ k ∈ ks.filter (fun k => !(B k).isEmpty),
      (ks.flatMap B).filter (fun m => groupKey m = k) = B k := by
    intro k hk
    exact filter_flatMap_blocks ks B groupKey k hndks hkeyB
      (List.mem_of_mem_filter hk)
  calc (ks.filter (fun k => !(B k).isEmpty)).flatMap (fun k =>
        (((ks.flatMap B).filter (fun m => groupKey m = k)).insertionSort
          (keyLE priority)).take mpt)
      = (ks.filter (fun k => !(B k).isEmpty)).flatMap B := by
        refine flatMap_congr_mem (fun k hk => ?_)
        rw [hfilter k hk]
        exact hsortTakeB k
    _ = ks.flatMap B := flatMap_filter_not_isEmpty ks B

end Selection

/-- C7 (amended): selection is idempotent — applying `select_top_markets`
(or `select_primary_markets`) to its own output, with the same
parameters, returns that output unchanged. (Order-independence of the
input list does not hold in general: when two distinct markets tie on
every sort key, the stable sort and the `top_k` truncation keep whichever
came first; see the counterexample.) -/
theorem C7_selection_idempotent :
    (∀ (markets : List Market) (top_k : Nat) (hot_sort : List String)
      (min_liquidity : Option ℚ) (keyword_allow keyword_block : List String),
      Selection.select_top_markets
        (Selection.select_top_markets markets top_k hot_sort min_liquidity
          keyword_allow keyword_block)
        top_k hot_sort min_liquidity keyword_allow keyword_block =
      Selection.select_top_markets markets top_k hot_sort min_liquidity
        keyword_allow keyword_block) ∧
    (∀ (markets : List Market) (priority : List String) (max_per_topic : Nat),
      Selection.select_primary_markets
        (Selection.select_primary_markets markets priority max_per_topic)
        priority max_per_topic =
      Selection.select_primary_markets markets priority max_per_topic) :=
  ⟨Selection.select_top_markets_idem, Selection.select_primary_markets_idem⟩

/-- Market `"a"` for the C7 counterexample; ties with `"b"` on every key. -/
def c7MarketA : Market := { market_id := "a", question := "Alpha versus?" }

/-- Market `"b"` for the C7 counterexample. -/
def c7MarketB : Market := { market_id := "b", question := "Beta versus?" }

/-- Counterexample to C7 as stated: selection is not order-independent.
With two markets that tie on the sort key (`liquidity` both null) and
`top_k = 1`, permuting the input flips which market is selected. -/
theorem C7_selection_counterexample :
    Selection.select_top_markets [c7MarketB, c7MarketA] 1 ["liquidity"]
        Option.none [] [] ≠
      Selection.select_top_markets [c7MarketA, c7MarketB] 1 ["liquidity"]
        Option.none [] [] := by
  decide

namespace Multiplex

/-- `domain/events.py::EventType`: a `StrEnum` member, looked up in the
routing table by both its value and its Python name. -/
structure EventType where
  value : String
  name : String
deriving DecidableEq

/-- `adapters/multiplex_sink.py::MultiplexEventSink` configuration: each
child sink is reduced to whether its `publish` succeeds (`true`) or
raises (`false`). -/
structure MuxConfig where
  sinks : List (String × Bool)
  mode : String := "best_effort"
  required_sinks : List String := []
  routes : List (String × List String) := []
deriving DecidableEq

/-- Code-point lexicographic `≤` on character lists (how Python compares
strings). -/
def charListLeB : List Char → List Char → Bool
  | [], _ => true
  | _ :: _, [] => false
  | a :: as, b :: bs =>
    if a.toNat < b.toNat then true
    else if b.toNat < a.toNat then false
    else charListLeB as bs

/-- The string order backing Python `sorted`. -/
def strLE (a b : String) : Prop := charListLeB a.data b.data = true

instance : DecidableRel strLE :=
  fun _ _ => inferInstanceAs (Decidable (_ = true))

/-- Python `sorted` on strings. -/
def sortStrings (l : List String) : List String :=
  l.insertionSort strLE

/-- `MultiplexEventSink._resolve_targets`: routes lookup by value then by
name with falsy-`or`; a truthy routed list wins, else all sink names. -/
def resolve_targets (cfg : MuxConfig) (et : EventType) : List String :=
  match pyOrList (dictGet cfg.routes et.value) (dictGet cfg.routes et.name) with
  | some l => if l.isEmpty then cfg.sinks.map (·.1) else l
  | Option.none => cfg.sinks.map (·.1)

/-- Outcome of one `publish` call: which sinks received the event (in
call order), which sink names recorded an exception (`errors` dict key
order), and the raised error's failing-sink list, if any. -/
structure PublishResult where
  received : List String
  errors : List String
  raised : Option (List String)
deriving DecidableEq

/-- One step of the sequential fan-out: absent names are skipped, a
successful child is recorded in `received`, a raising child is recorded
in the `errors` dict (first occurrence keeps its slot). -/
def publishStep (cfg : MuxConfig) (acc : List String × List String)
    (name : String) : List String × List String :=
  match dictGet cfg.sinks name with
  | Option.none => acc
  | some ok =>
    if ok then (acc.1 ++ [name], acc.2)
    else (acc.1, if name ∈ acc.2 then acc.2 else acc.2 ++ [name])

/-- `MultiplexEventSink.publish`: fan out sequentially over the resolved
targets, then raise (naming `sorted(set(errors) & required)`) iff that
intersection is non-empty and the mode/required guard passes. -/
def publish (cfg : MuxConfig) (et : EventType) : PublishResult :=
  let targets := resolve_targets cfg et
  let acc := targets.foldl (publishStep cfg) ([], [])
  let raised :=
    if acc.2.isEmpty then Option.none
    else if cfg.mode = "required_sinks" ∨ ¬ cfg.required_sinks.isEmpty then
      let missing := sortStrings (acc.2.filter (· ∈ cfg.required_sinks))
      if missing.isEmpty then Option.none else some missing
    else Option.none
  ⟨acc.1, acc.2, raised⟩

theorem publishStep_foldl_received (cfg : MuxConfig) :
    ∀ (ts : List String) (r0 e0 : List String),
      (ts.foldl (publishStep cfg) (r0, e0)).1 =
        r0 ++ ts.filter (fun n => dictGet cfg.sinks n = some true) := by
  intro ts
  induction ts with
  | nil => intro r0 e0; simp
  | cons n t ih =>
    intro r0 e0
    simp only [List.foldl_cons, List.filter_cons]
    cases hn : dictGet cfg.sinks n with
    | none => simp [publishStep, hn, ih]
    | some ok =>
      cases ok with
      | true => simp [publishStep, hn, ih]
      | false => simp [publishStep, hn, ih]

theorem publishStep_foldl_errors_mem (cfg : MuxConfig) :
    ∀ (ts : List String) (r0 e0 : List String) (n : String),
      n ∈ (ts.foldl (publishStep cfg) (r0, e0)).2 ↔
        n ∈ e0 ∨ (n ∈ ts ∧ dictGet cfg.sinks n = some false) := by
  intro ts
  induction ts with
  | nil => intro r0 e0 n; simp
  | cons m t ih =>
    intro r0 e0 n
    simp only [List.foldl_cons, List.mem_cons]
    cases hm : dictGet cfg.sinks m with
    | none =>
      simp only [publishStep, hm, ih]
      constructor
      · rintro (h | ⟨ht, hf⟩)
        · exact Or.inl h
        · exact Or.inr ⟨Or.inr ht, hf⟩
      · rintro (h | ⟨hm' | ht, hf⟩)
        · exact Or.inl h
        · rw [hm'] at hf; rw [hf] at hm; cases hm
        · exact Or.inr ⟨ht, hf⟩
    | some ok =>
      cases ok with
      | true =>
        simp only [publishStep, hm, if_true, ih]
        constructor
        · rintro (h | ⟨ht, hf⟩)
          · exact Or.inl h
          · exact Or.inr ⟨Or.inr ht, hf⟩
        · rintro (h | ⟨hm' | ht, hf⟩)
          · exact Or.inl h
          · rw [hm'] at hf; rw [hf] at hm; cases hm
          · exact Or.inr ⟨ht, hf⟩
      | false =>
        simp only [publishStep, hm, if_false, ih]
        by_cases hmem : m ∈ e0
        · simp only [hmem, if_true]
          constructor
          · rintro (h | ⟨ht, hf⟩)
            · exact Or.inl h
            · exact Or.inr ⟨Or.inr ht, hf⟩
          · rintro (h | ⟨hm' | ht, hf⟩)
            · exact Or.inl h
            · exact Or.inl (hm' ▸ hmem)
            · exact Or.inr ⟨ht, hf⟩
        · simp only [hmem, if_false]
          constructor
          · rintro (h | ⟨ht, hf⟩)
            · rcases List.mem_append.1 h with h' | h'
              · exact Or.inl h'
              · have : n = m := List.mem_singleton.1 h'
                exact Or.inr ⟨Or.inl this, this ▸ hm⟩
            · exact Or.inr ⟨Or.inr ht, hf⟩
          · rintro (h | ⟨hm' | ht, hf⟩)
            · exact Or.inl (List.mem_append.2 (Or.inl h))
            · exact Or.inl (List.mem_append.2 (Or.inr (by simp [hm'])))
            · exact Or.inr ⟨ht, hf⟩

end Multiplex

namespace Multiplex

theorem sortStrings_ne_nil {l : List String} (h : l ≠ []) :
    sortStrings l ≠ [] := by
  intro hx
  have := congrArg List.length hx
  rw [sortStrings, List.length_insertionSort] at this
  exact h (List.length_eq_zero.1 this)

theorem mem_sortStrings {l : List String} {x : String} :
    x ∈ sortStrings l ↔ x ∈ l :=
  List.mem_insertionSort _

end Multiplex

/-- C5 (amended): multiplex `publish` fans out to the resolved targets
sequentially — `received` is exactly the present, successful targets in
call order — collects per-sink failures, and raises **iff** some failing
sink name is a member of `required_sinks`; `mode = "required_sinks"`
alone does not make a failing sink required (see the counterexample).
When it raises, every name in the raised error is a failing required
sink. Failures of non-required sinks are swallowed. -/
theorem C5_required_sink_raise_iff (cfg : Multiplex.MuxConfig)
    (et : Multiplex.EventType) :
    ((Multiplex.publish cfg et).raised ≠ Option.none ↔
      ∃ n, n ∈ (Multiplex.publish cfg et).errors ∧ n ∈ cfg.required_sinks) ∧
    (Multiplex.publish cfg et).received =
      (Multiplex.resolve_targets cfg et).filter
        (fun n => dictGet cfg.sinks n = some true) ∧
    (∀ l, (Multiplex.publish cfg et).raised = some l →
      ∀ n ∈ l, n ∈ (Multiplex.publish cfg et).errors ∧
        n ∈ cfg.required_sinks) := by
  have hrec : (Multiplex.publish cfg et).received =
      ((Multiplex.resolve_targets cfg et).foldl
        (Multiplex.publishStep cfg) ([], [])).1 := rfl
  have herr : (Multiplex.publish cfg et).errors =
      ((Multiplex.resolve_targets cfg et).foldl
        (Multiplex.publishStep cfg) ([], [])).2 := rfl
  set errs := ((Multiplex.resolve_targets cfg et).foldl
    (Multiplex.publishStep cfg) ([], [])).2 with herrs
  have hraise : (Multiplex.publish cfg et).raised =
      (if errs.isEmpty then Option.none
       else if cfg.mode = "required_sinks" ∨ ¬ cfg.required_sinks.isEmpty then
         if (Multiplex.sortStrings
            (errs.filter (· ∈ cfg.required_sinks))).isEmpty then Option.none
         else some (Multiplex.sortStrings
            (errs.filter (· ∈ cfg.required_sinks)))
       else Option.none) := rfl
  have hfilterMem : ∀ n, n ∈ errs.filter (· ∈ cfg.required_sinks) ↔
      n ∈ errs ∧ n ∈ cfg.required_sinks := by
    intro n
    rw [List.mem_filter]
    simp
  refine ⟨?_, ?_, ?_⟩
  · rw [hraise, herr]
    rcases hx : errs.filter (· ∈ cfg.required_sinks) with _ | ⟨a, t⟩
    · have hno : ¬ ∃ n, n ∈ errs ∧ n ∈ cfg.required_sinks := by
        rintro ⟨n, hn⟩
        have := (hfilterMem n).2 hn
        rw [hx] at this
        exact List.not_mem_nil n this
      have hmiss : (Multiplex.sortStrings ([] : List String)).isEmpty =
          true := rfl
      constructor
      · intro hne
        exfalso
        apply hne
        by_cases h1 : errs.isEmpty
        · rw [if_pos h1]
        · rw [if_neg h1]
          by_cases h2 : cfg.mode = "required_sinks" ∨
              ¬ cfg.required_sinks.isEmpty
          · rw [if_pos h2, if_pos hmiss]
          · rw [if_neg h2]
      · intro h
        exact absurd h hno
    · have hmem : a ∈ errs ∧ a ∈ cfg.required_sinks :=
        (hfilterMem a).1 (hx ▸ List.mem_cons_self a t)
      have h1 : ¬ errs.isEmpty = true := by
        intro h
        rw [List.isEmpty_iff.1 h] at hx
        cases hx
      have h2 : cfg.mode = "required_sinks" ∨
          ¬ cfg.required_sinks.isEmpty := by
        right
        intro hreq
        rw [List.isEmpty_iff.1 hreq] at hmem
        exact List.not_mem_nil a hmem.2
      have hmiss : ¬ (Multiplex.sortStrings (a :: t)).isEmpty = true := by
        intro h
        exact Multiplex.sortStrings_ne_nil (List.cons_ne_nil a t)
          (List.isEmpty_iff.1 h)
      constructor
      · intro _
        exact ⟨a, hmem⟩
      · intro _
        rw [if_neg h1, if_pos h2, if_neg hmiss]
        simp
  · rw [hrec, Multiplex.publishStep_foldl_received]
    simp
  · intro l hl n hn
    rw [hraise] at hl
    by_cases h1 : errs.isEmpty
    · rw [if_pos h1] at hl; cases hl
    · rw [if_neg h1] at hl
      by_cases h2 : cfg.mode = "required_sinks" ∨ ¬ cfg.required_sinks.isEmpty
      · rw [if_pos h2] at hl
        by_cases h3 : (Multiplex.sortStrings
            (errs.filter (· ∈ cfg.required_sinks))).isEmpty
        · rw [if_pos h3] at hl; cases hl
        · rw [if_neg h3] at hl
          have hln : l = Multiplex.sortStrings
              (errs.filter (· ∈ cfg.required_sinks)) :=
            (Option.some.injEq _ _ ▸ hl).symm
          rw [hln] at hn
          rw [Multiplex.mem_sortStrings] at hn
          rw [herr]
          exact (hfilterMem n).1 hn
      · rw [if_neg h2] at hl; cases hl

/-- The spec scenario's multiplex: sink `a` succeeds, sink `b` raises,
`required = ["b"]`. -/
def c5Cfg : Multiplex.MuxConfig :=
  ⟨[("a", true), ("b", false)], "best_effort", ["b"], []⟩

/-- Any event type (no routes are configured). -/
def c5Et : Multiplex.EventType := ⟨"trade_signal", "TRADE_SIGNAL"⟩

/-- Witness for C5: with `{a: ok, b: raises}` and `required = ["b"]`,
publish raises (the raised error names `b`, a failing required sink) and
sink `a` still received the event. -/
theorem C5_required_sink_raise_iff_witness :
    (Multiplex.publish c5Cfg c5Et).raised ≠ Option.none ∧
    (Multiplex.publish c5Cfg c5Et).received = ["a"] ∧
    ("b" ∈ (Multiplex.publish c5Cfg c5Et).errors ∧
      "b" ∈ c5Cfg.required_sinks) :=
  ⟨(C5_required_sink_raise_iff c5Cfg c5Et).1.2 ⟨"b", by decide, by decide⟩,
    by rw [(C5_required_sink_raise_iff c5Cfg c5Et).2.1]; decide,
    (C5_required_sink_raise_iff c5Cfg c5Et).2.2 ["b"] (by decide) "b"
      (by decide)⟩

/-- A multiplex in `required_sinks` mode whose `required_sinks` set is
empty, with one failing sink. -/
def c5BadCfg : Multiplex.MuxConfig :=
  ⟨[("b", false)], "required_sinks", [], []⟩

/-- Counterexample to C5 as stated: under `mode = "required_sinks"` a
failing sink does **not** cause a raise unless it is also named in
`required_sinks` — publish returns normally although sink `b` failed in
`required_sinks` mode. -/
theorem C5_required_sink_raise_iff_counterexample :
    c5BadCfg.mode = "required_sinks" ∧
    (Multiplex.publish c5BadCfg c5Et).errors = ["b"] ∧
    (Multiplex.publish c5BadCfg c5Et).raised = Option.none := by
  refine ⟨rfl, by decide, by decide⟩

/-- C10: routed sink names that are absent from the configured sinks map
are silently skipped — when every resolved target is absent, publish
delivers nothing, records no per-sink error, and returns normally (no
raise), even when such names are listed in `required_sinks`. -/
theorem C10_absent_sinks_skipped (cfg : Multiplex.MuxConfig)
    (et : Multiplex.EventType)
    (h : ∀ n ∈ Multiplex.resolve_targets cfg et,
      dictGet cfg.sinks n = Option.none) :
    Multiplex.publish cfg et = ⟨[], [], Option.none⟩ := by
  have hfold : ∀ (ts : List String),
      (∀ n ∈ ts, dictGet cfg.sinks n = Option.none) →
      ts.foldl (Multiplex.publishStep cfg) ([], []) =
        (([] : List String), ([] : List String)) := by
    intro ts
    induction ts with
    | nil => intro _; rfl
    | cons n t ih =>
      intro hn
      simp only [List.foldl_cons, Multiplex.publishStep,
        hn n (List.mem_cons_self n t)]
      exact ih (fun m hm => hn m (List.mem_cons_of_mem n hm))
  have hacc := hfold (Multiplex.resolve_targets cfg et) h
  show (⟨_, _, _⟩ : Multiplex.PublishResult) = _
  rw [Multiplex.PublishResult.mk.injEq]
  refine ⟨?_, ?_, ?_⟩
  · rw [hacc]
  · rw [hacc]
  · rw [hacc]; rfl

/-- A multiplex whose route for the event maps to a name that is not a
configured sink and is listed as required. -/
def c10Cfg : Multiplex.MuxConfig :=
  ⟨[("a", true)], "best_effort", ["ghost"], [("trade_signal", ["ghost"])]⟩

/-- Witness for C10: the route resolves to the absent (required!) name
`ghost`; publish delivers nothing, records nothing, and returns
normally. -/
theorem C10_absent_sinks_skipped_witness :
    Multiplex.publish c10Cfg c5Et = ⟨[], [], Option.none⟩ :=
  C10_absent_sinks_skipped c10Cfg c5Et (by decide)

namespace Gamma

/-- `GammaHttpCatalog._to_bool`. -/
def toBool (v : PyVal) (default : Bool) : Bool :=
  match v with
  | .none => default
  | .bool b => b
  | .num q => decide (q ≠ 0)
  | .str s =>
    let lowered := pyLower (pyStrip s)
    if lowered = "true" ∨ lowered = "1" ∨ lowered = "yes" then true
    else if lowered = "false" ∨ lowered = "0" ∨ lowered = "no" then false
    else default

/-- `GammaHttpCatalog._to_float`. Numeric strings are represented as
`PyVal.num` in this model; a residual `str` is a non-numeric string, on
which Python's `float(...)` raises and `_to_float` returns `None`. -/
def toFloat (v : PyVal) : Option ℚ :=
  match v with
  | .none => Option.none
  | .bool b => some (if b then 1 else 0)
  | .num q => some q
  | .str _ => Option.none

/-- Python truthiness of a scalar value. -/
def pyTruthy (v : PyVal) : Bool :=
  match v with
  | .none => false
  | .bool b => b
  | .num q => decide (q ≠ 0)
  | .str s => decide (s ≠ "")

/-- Python `a or b` over scalar values. -/
def pyOrVal (a b : PyVal) : PyVal := if pyTruthy a then a else b

/-- Truncation toward zero, as Python's `int(float)`. -/
def pyInt (q : ℚ) : Int := if 0 ≤ q then ⌊q⌋ else -⌊-q⌋

/-- `GammaHttpCatalog._parse_end_ts`. Integer-string forms are parsed;
ISO-8601 date strings are outside this model (they do not occur in the
claims) and coerce to `none`. -/
def parse_end_ts (v : PyVal) : Option Int :=
  match v with
  | .none => Option.none
  | .bool b => some (if b then 1 else 0)
  | .num q => some (pyInt q)
  | .str s => s.toInt?

/-- A token/outcome object, with the keys `_coerce_token_id` and
`_extract_outcomes` read. -/
structure TokenDict where
  token_id : Option String := Option.none
  tokenId : Option String := Option.none
  clobTokenId : Option String := Option.none
  asset_id : Option String := Option.none
  assetId : Option String := Option.none
  id : Option String := Option.none
  side : Option String := Option.none
  name : Option String := Option.none
  title : Option String := Option.none
deriving DecidableEq

/-- One entry of a market's `outcomes` array: an object or a bare name.
(String-encoded arrays are represented already decoded.) -/
inductive OutcomeItem where
  | dict (d : TokenDict)
  | str (s : String)
deriving DecidableEq

/-- A raw market dict nested in a `/events` response, with the keys
`_parse_market` and the event enrichment read or write. Absent keys are
`none`/`PyVal.none`; `clobTokenIds` carries the decoded id list (the
JSON-string and CSV wire forms decode to the same list). -/
structure RawMarket where
  conditionId : Option String := Option.none
  condition_id : Option String := Option.none
  id : Option String := Option.none
  market_id : Option String := Option.none
  marketId : Option String := Option.none
  question : Option String := Option.none
  title : Option String := Option.none
  description : Option String := Option.none
  _event_id : Option String := Option.none
  event_id : Option String := Option.none
  eventId : Option String := Option.none
  active : PyVal := .none
  closed : PyVal := .none
  resolved : PyVal := .none
  enableOrderBook : PyVal := .none
  enable_orderbook : PyVal := .none
  end_ts : PyVal := .none
  endDate : PyVal := .none
  endDateIso : PyVal := .none
  liquidity : PyVal := .none
  liquidityUSD : PyVal := .none
  liquidityNum : PyVal := .none
  volume_24h : PyVal := .none
  volume24h : PyVal := .none
  volume24hr : PyVal := .none
  volume24hrClob : PyVal := .none
  clobTokenIds : Option (List String) := Option.none
  outcomes : Option (List OutcomeItem) := Option.none
  tokens : Option (List TokenDict) := Option.none
deriving DecidableEq

/-- An `/events` item, with the keys the catalog client reads. -/
structure GEvent where
  id : Option String := Option.none
  event_id : Option String := Option.none
  eventId : Option String := Option.none
  title : Option String := Option.none
  slug : Option String := Option.none
  active : PyVal := .none
  closed : PyVal := .none
  archived : PyVal := .none
  pendingDeployment : PyVal := .none
  deploying : PyVal := .none
  end_ts : PyVal := .none
  endDate : PyVal := .none
  endDateIso : PyVal := .none
  enableOrderBook : PyVal := .none
  liquidity : PyVal := .none
  liquidityUSD : PyVal := .none
  liquidityNum : PyVal := .none
  volume_24h : PyVal := .none
  volume24h : PyVal := .none
  volume24hr : PyVal := .none
  volume24hrClob : PyVal := .none
  markets : List RawMarket := []
deriving DecidableEq

/-- `GammaHttpCatalog._event_is_active`: event-level activity —
`active ∧ ¬closed ∧ ¬archived`, then `¬(pendingDeployment ∨ deploying)`.
Note there is no end-date / clock condition here. -/
def event_is_active (e : GEvent) : Bool :=
  let active := toBool e.active true
  let closed := toBool e.closed false
  let archived := toBool e.archived false
  if !active || closed || archived then false
  else
    let pending := toBool e.pendingDeployment false
    let deploying := toBool e.deploying false
    !(pending || deploying)

/-- `GammaHttpCatalog._coerce_token_id`. -/
def coerce_token_id (t : TokenDict) : Option String :=
  pyCoalesce t.token_id (pyCoalesce t.tokenId (pyCoalesce t.clobTokenId
    (pyCoalesce t.asset_id (pyCoalesce t.assetId t.id))))

/-- `GammaHttpCatalog._extract_outcomes` — `add_token` keeps a token only
when its coerced id is truthy; bare-name outcomes get an empty id. -/
def extract_outcomes (raw : RawMarket) : List OutcomeToken :=
  let addToken := fun (t : TokenDict) =>
    match coerce_token_id t with
    | some tid =>
      if tid ≠ "" then
        [({ token_id := tid,
            side := pyOrStr t.side (pyOrStr t.name t.title) } : OutcomeToken)]
      else []
    | Option.none => []
  let fromOutcomes :=
    match raw.outcomes with
    | some items =>
      items.flatMap (fun item =>
        match item with
        | .dict d => addToken d
        | .str s => [({ token_id := "", side := some s } : OutcomeToken)])
    | Option.none => []
  let fromTokens :=
    match raw.tokens with
    | some ts => ts.flatMap addToken
    | Option.none => []
  fromOutcomes ++ fromTokens

/-- `GammaHttpCatalog._attach_outcome_token_ids`. -/
def attach_outcome_token_ids (outcomes : List OutcomeToken)
    (clob_token_ids : List String) : List OutcomeToken :=
  if outcomes.isEmpty ∨ clob_token_ids.isEmpty then outcomes
  else if outcomes.length ≠ clob_token_ids.length then outcomes
  else
    (outcomes.zip clob_token_ids).map (fun p =>
      { token_id := if p.1.token_id = "" then p.2 else p.1.token_id
        side := p.1.side })

/-- `GammaHttpCatalog._parse_clob_token_ids` on the decoded list form:
keep the truthy entries. -/
def parse_clob_token_ids (v : Option (List String)) : List String :=
  match v with
  | some xs => xs.filter (· ≠ "")
  | Option.none => []

/-- `GammaHttpCatalog._parse_market`. -/
def parse_market (raw : RawMarket) : Market :=
  let market_id := (pyOrStr raw.conditionId (pyOrStr raw.condition_id
    (pyOrStr raw.id (pyOrStr raw.market_id raw.marketId)))).getD ""
  let question := (pyOrStr raw.question
    (pyOrStr raw.title raw.description)).getD ""
  let event_id := (pyOrStr raw._event_id
    (pyOrStr raw.event_id raw.eventId)).getD ""
  let active := toBool raw.active true
  let closed := toBool raw.closed false
  let resolved := toBool raw.resolved false
  let enable_orderbook_raw := pyOrVal raw.enableOrderBook raw.enable_orderbook
  let enable_orderbook :=
    match enable_orderbook_raw with
    | .none => (Option.none : Option Bool)
    | v => some (toBool v true)
  let end_ts := parse_end_ts (pyOrVal raw.end_ts
    (pyOrVal raw.endDate raw.endDateIso))
  let liquidity := toFloat (pyOrVal raw.liquidity
    (pyOrVal raw.liquidityUSD raw.liquidityNum))
  let volume_24h := toFloat (pyOrVal raw.volume_24h
    (pyOrVal raw.volume24h (pyOrVal raw.volume24hr raw.volume24hrClob)))
  let clob_token_ids := parse_clob_token_ids raw.clobTokenIds
  let outcomes := attach_outcome_token_ids (extract_outcomes raw)
    clob_token_ids
  let token_ids := (dedupFirst (clob_token_ids ++
    (outcomes.filter (fun o => o.token_id ≠ "")).map (·.token_id))).filter
    (· ≠ "")
  { market_id := market_id
    question := question
    event_id := if event_id = "" then Option.none else some event_id
    enable_orderbook := enable_orderbook
    active := active
    closed := closed
    resolved := resolved
    end_ts := end_ts
    liquidity := liquidity
    volume_24h := volume_24h
    token_ids := token_ids
    outcomes := outcomes }

/-- `GammaHttpCatalog._extract_markets_from_event`: propagate the event's
id, end date and `enableOrderBook` onto nested markets that lack them,
parse each, and fall back to the event title for empty questions. -/
def extract_markets_from_event (e : GEvent) : List Market :=
  let event_id := (pyOrStr e.id (pyOrStr e.event_id e.eventId)).getD ""
  let event_title := (pyOrStr e.title e.slug).getD ""
  let event_end := pyOrVal e.end_ts (pyOrVal e.endDate e.endDateIso)
  let event_enable_ob := e.enableOrderBook
  let enriched := e.markets.map (fun item =>
    let item := if event_id ≠ "" ∧ item.event_id = Option.none ∧
        item.eventId = Option.none then
      { item with _event_id := some event_id } else item
    let item := if event_end ≠ .none ∧ item.end_ts = .none ∧
        item.endDate = .none ∧ item.endDateIso = .none then
      { item with endDate := event_end } else item
    if event_enable_ob ≠ .none ∧ item.enableOrderBook = .none then
      { item with enableOrderBook := event_enable_ob } else item)
  (enriched.map parse_market).map (fun m =>
    if m.question = "" then { m with question := event_title } else m)

/-- `GammaHttpCatalog._event_volume_24h`. -/
def event_volume_24h (e : GEvent) : ℚ :=
  match toFloat e.volume_24h with
  | some v => v
  | Option.none =>
  match toFloat e.volume24h with
  | some v => v
  | Option.none =>
  match toFloat e.volume24hr with
  | some v => v
  | Option.none =>
  match toFloat e.volume24hrClob with
  | some v => v
  | Option.none =>
    (e.markets.map (fun item => (toFloat (pyOrVal item.volume_24h
      (pyOrVal item.volume24h (pyOrVal item.volume24hr
        item.volume24hrClob)))).getD 0)).sum

/-- `GammaHttpCatalog._event_liquidity`. -/
def event_liquidity (e : GEvent) : ℚ :=
  match toFloat e.liquidity with
  | some v => v
  | Option.none =>
  match toFloat e.liquidityUSD with
  | some v => v
  | Option.none =>
  match toFloat e.liquidityNum with
  | some v => v
  | Option.none =>
    (e.markets.map (fun item => (toFloat (pyOrVal item.liquidity
      (pyOrVal item.liquidityUSD item.liquidityNum))).getD 0)).sum

/-- `GammaHttpCatalog._event_metric`. -/
def event_metric (e : GEvent) (key : Option String) : ℚ :=
  match key with
  | Option.none => 0
  | some k =>
    if k = "" then 0
    else
      let key_norm := pyLower (pyStrip k)
      if key_norm = "volume24hr" ∨ key_norm = "volume24h" ∨
          key_norm = "volume_24h" ∨ key_norm = "volume24hrclob" then
        event_volume_24h e
      else if key_norm = "liquidity" ∨ key_norm = "liquidityusd" ∨
          key_norm = "liquiditynum" then
        event_liquidity e
      else 0

/-- Python tuple `≤` on a metric pair. -/
def pairLeB (a b : ℚ × ℚ) : Bool :=
  if a.1 < b.1 then true else if b.1 < a.1 then false else decide (a.2 ≤ b.2)

/-- The catalog client's sorting/limit configuration, after constructor
normalization (`_normalize_sort_key`, `_normalize_limit`). -/
structure GammaCfg where
  events_sort_primary : Option String := some "volume24hr"
  events_sort_secondary : Option String := some "liquidity"
  events_sort_desc : Bool := true
  events_limit_per_category : Option Nat := Option.none
deriving DecidableEq

/-- The sort relation of `sorted(events, key, reverse)`: stable, by
`(primary, secondary)` metric, descending when `events_sort_desc`. -/
def eventSortLE (cfg : GammaCfg) (a b : GEvent) : Prop :=
  (if cfg.events_sort_desc then
    pairLeB (event_metric b cfg.events_sort_primary,
        event_metric b cfg.events_sort_secondary)
      (event_metric a cfg.events_sort_primary,
        event_metric a cfg.events_sort_secondary)
  else
    pairLeB (event_metric a cfg.events_sort_primary,
        event_metric a cfg.events_sort_secondary)
      (event_metric b cfg.events_sort_primary,
        event_metric b cfg.events_sort_secondary)) = true

instance (cfg : GammaCfg) : DecidableRel (eventSortLE cfg) :=
  fun _ _ => inferInstanceAs (Decidable (_ = true))

/-- `GammaHttpCatalog._sort_events`. -/
def sort_events (cfg : GammaCfg) (events : List GEvent) : List GEvent :=
  match cfg.events_sort_primary with
  | Option.none => events
  | some _ => events.insertionSort (eventSortLE cfg)

/-- The pure, post-fetch portion of `GammaHttpCatalog.list_markets` on
the `/events` strategy: filter events by `_event_is_active`, sort, apply
the per-category limit, flatten to markets, and apply the market-level
filter. (The HTTP pagination that produces `events` is I/O and outside
the model; note no clock value enters anywhere.) -/
def list_markets_events (cfg : GammaCfg) (events : List GEvent)
    (active : Bool := true) (closed : Bool := false) : List Market :=
  let evs := events.filter (fun e => event_is_active e)
  let evs := sort_events cfg evs
  let evs :=
    match cfg.events_limit_per_category with
    | some lim => if evs.length > lim then evs.take lim else evs
    | Option.none => evs
  let markets := evs.flatMap extract_markets_from_event
  markets.filter (fun m =>
    m.market_id ≠ "" &&
    (if active then m.active else true) &&
    (if !closed then !m.closed else true) &&
    !m.resolved)

end Gamma

namespace Gamma

/-- The event-level flag filter, written as the flat conjunction
`active ∧ ¬closed ∧ ¬archived ∧ ¬pendingDeployment ∧ ¬deploying`
(spec §4.1 without its end-date conjunct). -/
def specEventLevelFlags (e : GEvent) : Bool :=
  toBool e.active true && !toBool e.closed false && !toBool e.archived false &&
    !toBool e.pendingDeployment false && !toBool e.deploying false

/-- Modelled from the spec: the event-activity filter as §4.1 words it,
`active ∧ ¬closed ∧ ¬archived ∧ ¬pendingDeployment ∧ ¬deploying ∧
(end_ts > now)`; an event with no end date passes the date conjunct. -/
def specEventIsActive (e : GEvent) (now_ms : Int) : Bool :=
  specEventLevelFlags e &&
    (match parse_end_ts (pyOrVal e.end_ts (pyOrVal e.endDate e.endDateIso)) with
     | some t => decide (now_ms < t)
     | Option.none => true)

end Gamma

/-- C8 (amended): the `/events`-strategy event filter
`_event_is_active` keeps exactly the events satisfying
`active ∧ ¬closed ∧ ¬archived ∧ ¬pendingDeployment ∧ ¬deploying` — and
it is independent of the event's end-date fields; no `end_ts > now`
condition is applied anywhere in the catalog client (expiry filtering
happens later, in discovery), so a past-end event's markets are still
returned (see the counterexample). -/
theorem C8_event_filter_amended :
    (∀ e : Gamma.GEvent,
      Gamma.event_is_active e = Gamma.specEventLevelFlags e) ∧
    (∀ (e : Gamma.GEvent) (x y z : PyVal),
      Gamma.event_is_active
        { e with end_ts := x, endDate := y, endDateIso := z } =
      Gamma.event_is_active e) := by
  constructor
  · intro e
    unfold Gamma.event_is_active Gamma.specEventLevelFlags
    cases Gamma.toBool e.active true <;>
      cases Gamma.toBool e.closed false <;>
      cases Gamma.toBool e.archived false <;>
      cases Gamma.toBool e.pendingDeployment false <;>
      cases Gamma.toBool e.deploying false <;> rfl
  · intro e x y z
    rfl

/-- The raw market contributing through the expired event. -/
def c8RawMarket : Gamma.RawMarket :=
  { conditionId := some "m1", question := some "Will it?" }

/-- An event that is active by every flag but whose `endDate` (5 ms) is
long past. -/
def c8Event : Gamma.GEvent := { endDate := .num 5, markets := [c8RawMarket] }

/-- The market `list_markets` returns for that event — with the event's
past end date propagated onto it. -/
def c8Market : Market :=
  { market_id := "m1", question := "Will it?", end_ts := some 5 }

unseal Rat.mul Rat.inv Rat.add Rat.sub in
/-- Counterexample to C8 as stated: at `now = 100 > end_ts = 5`, the
spec's filter (with its `end_ts > now` conjunct) rejects the event, yet
`_event_is_active` accepts it and `list_markets` returns its market. -/
theorem C8_event_filter_counterexample :
    Gamma.list_markets_events {} [c8Event] true false = [c8Market] ∧
    Gamma.specEventIsActive c8Event 100 = false ∧
    Gamma.event_is_active c8Event = true := by
  refine ⟨by decide, by decide, by decide⟩

namespace Clob

/-- `adapters/clob_ws.py::ClobWebSocketFeed` construction parameters that
shape the subscription frame. (The constructor accepts **no**
`max_frame_bytes` parameter — see C1.) -/
structure ClobCfg where
  channel : String
  custom_feature_enabled : Bool
  initial_dump : Bool
deriving DecidableEq

/-- JSON rendering of a Python bool. -/
def boolJson (b : Bool) : String := if b then "true" else "false"

/-- `orjson.dumps(payload)` for the initial subscription frame
`{type, assets_ids, custom_feature_enabled, initial_dump}`: compact
separators, insertion key order; the channel and token ids need no JSON
escaping (they are plain ASCII identifiers). The byte length equals the
string length. -/
def dumpsInitialFrame (cfg : ClobCfg) (ids : List String) : String :=
  "\x7b\"type\":\"" ++ cfg.channel ++ "\",\"assets_ids\":[" ++
    String.intercalate "," (ids.map (fun i => "\"" ++ i ++ "\"")) ++
    "],\"custom_feature_enabled\":" ++ boolJson cfg.custom_feature_enabled ++
    ",\"initial_dump\":" ++ boolJson cfg.initial_dump ++ "\x7d"

/-- `ClobWebSocketFeed._send_initial_subscription`: nothing for an empty
id list, otherwise exactly **one** frame carrying every id. -/
def send_initial_subscription (cfg : ClobCfg) (token_ids : List String) :
    List String :=
  if token_ids.isEmpty then [] else [dumpsInitialFrame cfg token_ids]

/-- `sorted(set(token_ids))`. -/
def sortedDedup (token_ids : List String) : List String :=
  Multiplex.sortStrings (dedupFirst token_ids)

/-- The frames `subscribe(token_ids)` sends on an open socket with no
prior subscription: `_apply_subscription_changes` takes the initial
branch and sends one initial subscription over `sorted(desired_ids)`. -/
def subscribeFrames (cfg : ClobCfg) (token_ids : List String) :
    List String :=
  send_initial_subscription cfg (sortedDedup token_ids)

/-- Zero-padded 3-digit rendering, as the repository test's token names. -/
def pad3 (i : Nat) : String :=
  if i < 10 then "00" ++ toString i
  else if i < 100 then "0" ++ toString i
  else toString i

/-- The repository test's input: 60 token ids `token-000`…`token-059`. -/
def c1Ids : List String := (List.range 60).map (fun i => "token-" ++ pad3 i)

/-- The test's feed configuration (channel `market`, both flags set). -/
def c1Cfg : ClobCfg := ⟨"market", true, true⟩

end Clob

set_option maxRecDepth 40000 in
/-- C1: `subscribe` never chunks. On the repository's own test input —
60 token ids with `max_frame_bytes = 200` — the code sends exactly one
frame that carries all 60 ids (so the union condition holds trivially)
whose serialized length is 802 bytes, exceeding 200. `clob_ws.py` has no
chunking logic at all and its constructor does not even accept the
`max_frame_bytes` parameter that `tests/test_clob_ws.py` and
`__main__.py` pass to it. -/
theorem C1_subscribe_sends_single_oversized_frame :
    Clob.subscribeFrames Clob.c1Cfg Clob.c1Ids =
      [Clob.dumpsInitialFrame Clob.c1Cfg Clob.c1Ids] ∧
    (Clob.dumpsInitialFrame Clob.c1Cfg Clob.c1Ids).length = 802 ∧
    200 < (Clob.dumpsInitialFrame Clob.c1Cfg Clob.c1Ids).length := by
  refine ⟨?_, by decide, by decide⟩
  show Clob.send_initial_subscription _ (Clob.sortedDedup Clob.c1Ids) = _
  have h : Clob.sortedDedup Clob.c1Ids = Clob.c1Ids := by decide
  rw [h]
  rfl

namespace Signals

/-- `application/types.py::TokenMeta`. -/
structure TokenMeta where
  token_id : String
  market_id : String
  category : String
  title : Option String := Option.none
  side : Option String := Option.none
  topic_key : Option String := Option.none
  end_ts : Option Int := Option.none
deriving DecidableEq

/-- `domain/models.py::TradeTick` (fields the engine reads). -/
structure TradeTick where
  token_id : String
  market_id : Option String := Option.none
  side : Option String := Option.none
  price : ℚ
  size : ℚ
  ts_ms : Int
deriving DecidableEq

/-- `signals/detector.py::TradeWindow`: deque of `(ts_ms, notional)` with
a running total. -/
structure TradeWindow where
  entries : List (Int × ℚ) := []
  total : ℚ := 0
deriving DecidableEq

/-- `TradeWindow.add`. -/
def TradeWindow.add (w : TradeWindow) (ts_ms : Int) (notional : ℚ) :
    TradeWindow :=
  { entries := w.entries ++ [(ts_ms, notional)], total := w.total + notional }

/-- The popleft loop of `TradeWindow.trim`. -/
def trimAux : List (Int × ℚ) → ℚ → Int → List (Int × ℚ) × ℚ
  | [], total, _ => ([], total)
  | (t, n) :: rest, total, cutoff =>
    if t < cutoff then trimAux rest (total - n) cutoff
    else ((t, n) :: rest, total)

/-- `TradeWindow.trim`. -/
def TradeWindow.trim (w : TradeWindow) (cutoff_ms : Int) : TradeWindow :=
  let r := trimAux w.entries w.total cutoff_ms
  ⟨r.1, r.2⟩

/-- `signals/detector.py::TradeSignalBucket`. (The source's `task` field
is the asyncio flush timer handle; the flush itself is modelled as the
explicit `flush_trade_bucket` call below.) -/
structure TradeSignalBucket where
  market_id : String
  token_id : String
  side : Option String
  category : String
  title : Option String
  topic_key : Option String
  end_ts : Option Int
  total_notional : ℚ := 0
  total_size : ℚ := 0
  last_price : ℚ := 0
  last_size : ℚ := 0
  max_vol_1m : Option ℚ := Option.none
  has_big_trade : Bool := false
  has_volume_spike : Bool := false
deriving DecidableEq

/-- `SignalEngine` configuration after `__init__`'s normalization. -/
structure EngineCfg where
  big_trade_usd : ℚ
  big_volume_1m_usd : ℚ
  big_wall_size : Option ℚ := Option.none
  cooldown_ms : Int := 0
  major_change_pct : ℚ := 0
  major_change_window_ms : Int := 0
  major_change_min_notional : ℚ := 0
  major_change_source : String := "trade"
  major_change_low_price_max : ℚ := 0
  major_change_low_price_abs : ℚ := 0
  major_change_spread_gate_k : ℚ := 0
  high_confidence_threshold : ℚ := 0
  reverse_allow_threshold : ℚ := 0
  merge_window_sec : ℚ := 0
  drop_expired_markets : Bool := true
deriving DecidableEq

/-- `SignalEngine.__init__`: seconds to ms, lower-cased source, clamped
thresholds. -/
def mkSignalEngine (big_trade_usd big_volume_1m_usd : ℚ)
    (big_wall_size : Option ℚ) (cooldown_sec : Int) (major_change_pct : ℚ)
    (major_change_window_sec : Int) (major_change_min_notional : ℚ)
    (major_change_source : String)
    (major_change_low_price_max major_change_low_price_abs
      major_change_spread_gate_k : ℚ)
    (high_confidence_threshold reverse_allow_threshold merge_window_sec : ℚ)
    (drop_expired_markets : Bool) : EngineCfg :=
  { big_trade_usd := big_trade_usd
    big_volume_1m_usd := big_volume_1m_usd
    big_wall_size := big_wall_size
    cooldown_ms := cooldown_sec * 1000
    major_change_pct := major_change_pct
    major_change_window_ms := major_change_window_sec * 1000
    major_change_min_notional := major_change_min_notional
    major_change_source := pyLower major_change_source
    major_change_low_price_max := max 0 major_change_low_price_max
    major_change_low_price_abs := max 0 major_change_low_price_abs
    major_change_spread_gate_k := max 0 major_change_spread_gate_k
    high_confidence_threshold := min 1 (max 0 high_confidence_threshold)
    reverse_allow_threshold := min 1 (max 0 reverse_allow_threshold)
    merge_window_sec := max 0 merge_window_sec
    drop_expired_markets := drop_expired_markets }

/-- The engine's mutable maps (all Python dicts). -/
structure EngineState where
  windows : List (String × TradeWindow) := []
  cooldowns : List ((String × String) × Int) := []
  token_meta : List (String × TokenMeta) := []
  last_price : List (String × (ℚ × Int)) := []
  best_quote : List (String × (ℚ × ℚ)) := []
  trade_buckets : List ((String × String) × TradeSignalBucket) := []
deriving DecidableEq

/-- The payload variants the engine emits. -/
inductive SignalPayload where
  | majorChange (pct_change pct_change_signed : ℚ) (direction : String)
      (price prev_price : ℚ) (window_sec : Int) (notional : ℚ)
      (source : String)
  | bigTrade (notional price size : ℚ) (vol_1m : Option ℚ)
  | volumeSpike (vol_1m price size : ℚ)
  | bigWall (max_bid max_ask threshold : ℚ)
deriving DecidableEq

/-- `payload.signal.value`. -/
def SignalPayload.signalValue : SignalPayload → String
  | .majorChange .. => "major_change"
  | .bigTrade .. => "big_trade"
  | .volumeSpike .. => "volume_spike_1m"
  | .bigWall .. => "big_wall"

/-- A published `DomainEvent`, reduced to the fields the claims speak
about. -/
structure Emission where
  token_id : String
  market_id : String
  event_type : String
  payload : SignalPayload
deriving DecidableEq

/-- `SignalEngine._is_market_expired`. -/
def is_market_expired (cfg : EngineCfg) (meta : TokenMeta) (now_ms : Int) :
    Bool :=
  if !cfg.drop_expired_markets then false
  else
    match meta.end_ts with
    | Option.none => false
    | some e => decide (e ≤ now_ms)

/-- `SignalEngine._is_high_confidence_market`. -/
def is_high_confidence_market (cfg : EngineCfg) (price : ℚ) : Bool :=
  if cfg.high_confidence_threshold ≤ 0 then false
  else if price < 0 ∨ 1 < price then false
  else decide (cfg.high_confidence_threshold ≤ max price (1 - price))

/-- `SignalEngine._is_reverse_allow_price`. -/
def is_reverse_allow_price (cfg : EngineCfg) (price : ℚ) : Bool :=
  if cfg.reverse_allow_threshold ≤ 0 then false
  else if price < 0 ∨ 1 < price then false
  else decide (price ≤ cfg.reverse_allow_threshold)

/-- `SignalEngine._emit_signal`: the per-`(token_id, signal)` cooldown
check; on success the cooldown slot is stamped and the event published. -/
def emit_signal (cfg : EngineCfg) (cooldowns : List ((String × String) × Int))
    (now_ms : Int) (meta : TokenMeta) (payload : SignalPayload)
    (event_type : String := "TradeSignal") :
    List ((String × String) × Int) × Option Emission :=
  let key := (meta.token_id, payload.signalValue)
  let last_ts := (dictGet cooldowns key).getD 0
  if now_ms - last_ts < cfg.cooldown_ms then (cooldowns, Option.none)
  else (dictSet cooldowns key now_ms,
    some ⟨meta.token_id, meta.market_id, event_type, payload⟩)

/-- Python `round(x, 4)`: banker's rounding of the exact rational. -/
def pyRound4 (x : ℚ) : ℚ :=
  let y := x * 10000
  let f : Int := ⌊y⌋
  let r := y - (f : ℚ)
  let n : Int :=
    if r < 1/2 then f
    else if 1/2 < r then f + 1
    else if f % 2 = 0 then f else f + 1
  (n : ℚ) / 10000

/-- `SignalEngine._resolve_spread`. -/
def resolve_spread (best_quote : List (String × (ℚ × ℚ))) (token_id : String)
    (best_bid best_ask : Option ℚ) : Option ℚ :=
  match best_bid, best_ask with
  | some b, some a => some (max 0 (a - b))
  | _, _ =>
    match dictGet best_quote token_id with
    | some q => some (max 0 (q.2 - q.1))
    | Option.none => Option.none

/-- `SignalEngine._use_low_price_abs`. -/
def use_low_price_abs (cfg : EngineCfg) (prev_price price : ℚ) : Bool :=
  if cfg.major_change_low_price_abs ≤ 0 then false
  else if cfg.major_change_low_price_max ≤ 0 then false
  else decide (min prev_price price ≤ cfg.major_change_low_price_max)

/-- `SignalEngine._maybe_emit_major_change` (both clock reads inside one
handler see the same `now_ms`). -/
def maybe_emit_major_change (cfg : EngineCfg) (st : EngineState)
    (now_ms : Int) (meta : TokenMeta) (price : ℚ) (ts_ms : Int)
    (notional : Option ℚ) (source : String)
    (best_bid best_ask : Option ℚ := Option.none) :
    EngineState × Option Emission :=
  if cfg.major_change_pct ≤ 0 then (st, Option.none)
  else
    let previous := dictGet st.last_price meta.token_id
    let st := { st with
      last_price := dictSet st.last_price meta.token_id (price, ts_ms) }
    match previous with
    | Option.none => (st, Option.none)
    | some prev =>
      let prev_price := prev.1
      let prev_ts := prev.2
      if prev_price ≤ 0 then (st, Option.none)
      else if cfg.major_change_window_ms < ts_ms - prev_ts then
        (st, Option.none)
      else
        let delta := price - prev_price
        let abs_delta := |delta|
        let spread_gated :=
          if 0 < cfg.major_change_spread_gate_k then
            match resolve_spread st.best_quote meta.token_id best_bid
                best_ask with
            | some spread =>
              decide (0 < spread) &&
                decide (abs_delta ≤ cfg.major_change_spread_gate_k * spread)
            | Option.none => false
          else false
        if spread_gated then (st, Option.none)
        else
          let pct_change_signed := delta / prev_price * 100
          let pct_change := |pct_change_signed|
          let threshold_passed :=
            if use_low_price_abs cfg prev_price price then
              !decide (abs_delta < cfg.major_change_low_price_abs)
            else
              !decide (pct_change < cfg.major_change_pct)
          if !threshold_passed then (st, Option.none)
          else if 0 < cfg.major_change_min_notional ∧
              (notional = Option.none ∨
                notional.getD 0 < cfg.major_change_min_notional) then
            (st, Option.none)
          else
            let r := emit_signal cfg st.cooldowns now_ms meta
              (SignalPayload.majorChange (pyRound4 pct_change)
                (pyRound4 pct_change_signed)
                (if 0 < pct_change_signed then "up" else "down")
                price prev_price (Int.fdiv cfg.major_change_window_ms 1000)
                (notional.getD 0) source)
              "TradeSignal"
            ({ st with cooldowns := r.1 }, r.2)

/-- `SignalEngine._bucket_key`: `(market_id, (side or "n/a").upper())`. -/
def bucket_key (meta : TokenMeta) : String × String :=
  (meta.market_id, pyUpper ((pyOrStr meta.side (some "n/a")).getD ""))

/-- `SignalEngine._enqueue_trade_bucket` (the first deposit also starts
the flush timer; the flush is the explicit call below). -/
def enqueue_trade_bucket (cfg : EngineCfg) (st : EngineState)
    (meta : TokenMeta) (trade : TradeTick) (notional vol_1m : ℚ)
    (is_big_trade is_volume_spike : Bool) : EngineState :=
  let key := bucket_key meta
  let bucket :=
    match dictGet st.trade_buckets key with
    | some b => b
    | Option.none =>
      { market_id := meta.market_id, token_id := meta.token_id,
        side := meta.side, category := meta.category, title := meta.title,
        topic_key := meta.topic_key, end_ts := meta.end_ts }
  let bucket := { bucket with
    token_id := meta.token_id
    side := meta.side
    category := meta.category
    title := meta.title
    topic_key := meta.topic_key
    end_ts := meta.end_ts
    last_price := trade.price
    last_size := trade.size }
  let bucket :=
    if is_big_trade then
      { bucket with
        has_big_trade := true
        total_notional := bucket.total_notional + notional
        total_size := bucket.total_size + trade.size }
    else bucket
  let bucket :=
    if is_volume_spike then
      { bucket with
        has_volume_spike := true
        max_vol_1m := some (match bucket.max_vol_1m with
          | Option.none => vol_1m
          | some m => max m vol_1m) }
    else bucket
  { st with trade_buckets := dictSet st.trade_buckets key bucket }

/-- `SignalEngine._flush_trade_bucket`, at its wake-up time `now_ms`:
pop the bucket, re-check expiry, build the merged payload, and route it
through `_emit_signal` (which re-checks the cooldown). Note there is no
high-confidence re-check here. -/
def flush_trade_bucket (cfg : EngineCfg) (st : EngineState) (now_ms : Int)
    (key : String × String) : EngineState × Option Emission :=
  match dictGet st.trade_buckets key with
  | Option.none => (st, Option.none)
  | some bucket =>
    let st := { st with trade_buckets := dictPop st.trade_buckets key }
    match dictGet st.token_meta bucket.token_id with
    | Option.none => (st, Option.none)
    | some meta =>
      if is_market_expired cfg meta now_ms then (st, Option.none)
      else
        let payload :=
          if bucket.has_big_trade then
            let avg_price :=
              if 0 < bucket.total_size then
                bucket.total_notional / bucket.total_size
              else bucket.last_price
            SignalPayload.bigTrade bucket.total_notional avg_price
              (if bucket.total_size = 0 then bucket.last_size
               else bucket.total_size)
              bucket.max_vol_1m
          else
            SignalPayload.volumeSpike (bucket.max_vol_1m.getD 0)
              bucket.last_price bucket.last_size
        let r := emit_signal cfg st.cooldowns now_ms meta payload
        ({ st with cooldowns := r.1 }, r.2)

/-- The trade window after appending this tick and trimming to the
60-second cutoff. -/
def windowAfterTrade (st : EngineState) (now_ms : Int) (trade : TradeTick) :
    TradeWindow :=
  (((dictGet st.windows trade.token_id).getD {}).add trade.ts_ms
    (trade.price * trade.size)).trim (now_ms - 60000)

/-- The engine state after the window update. -/
def stateAfterWindow (st : EngineState) (now_ms : Int) (trade : TradeTick) :
    EngineState :=
  { st with
    windows := dictSet st.windows trade.token_id
      (windowAfterTrade st now_ms trade) }

/-- The major-change evaluation step of `handle_trade` (runs when
`major_change_source ∈ {trade, any}`). -/
def majorChangeStep (cfg : EngineCfg) (st : EngineState) (now_ms : Int)
    (meta : TokenMeta) (trade : TradeTick) : EngineState × Option Emission :=
  if cfg.major_change_source = "trade" ∨ cfg.major_change_source = "any" then
    maybe_emit_major_change cfg st now_ms meta trade.price trade.ts_ms
      (some (trade.price * trade.size)) "trade"
  else (st, Option.none)

/-- `SignalEngine.handle_trade`. -/
def handle_trade (cfg : EngineCfg) (st : EngineState) (now_ms : Int)
    (trade : TradeTick) : EngineState × List Emission :=
  match dictGet st.token_meta trade.token_id with
  | Option.none => (st, [])
  | some meta =>
    if is_market_expired cfg meta now_ms then (st, [])
    else
      let notional := trade.price * trade.size
      let window := windowAfterTrade st now_ms trade
      let st := stateAfterWindow st now_ms trade
      let mc := majorChangeStep cfg st now_ms meta trade
      let st := mc.1
      let mcList := mc.2.toList
      let is_big_trade := decide (cfg.big_trade_usd ≤ notional)
      let is_volume_spike := decide (cfg.big_volume_1m_usd ≤ window.total)
      if (is_big_trade || is_volume_spike) &&
          is_high_confidence_market cfg trade.price &&
          !is_reverse_allow_price cfg trade.price then
        (st, mcList)
      else if decide (0 < cfg.merge_window_sec) &&
          (is_big_trade || is_volume_spike) then
        (enqueue_trade_bucket cfg st meta trade notional window.total
          is_big_trade is_volume_spike, mcList)
      else if is_big_trade && is_volume_spike then
        let r := emit_signal cfg st.cooldowns now_ms meta
          (SignalPayload.bigTrade notional trade.price trade.size
            (some window.total))
        ({ st with cooldowns := r.1 }, mcList ++ r.2.toList)
      else
        let stepBig :=
          if is_big_trade then
            let r := emit_signal cfg st.cooldowns now_ms meta
              (SignalPayload.bigTrade notional trade.price trade.size
                Option.none)
            ({ st with cooldowns := r.1 }, r.2.toList)
          else (st, [])
        let st := stepBig.1
        let stepVol :=
          if is_volume_spike then
            let r := emit_signal cfg st.cooldowns now_ms meta
              (SignalPayload.volumeSpike window.total trade.price trade.size)
            ({ st with cooldowns := r.1 }, r.2.toList)
          else (st, [])
        (stepVol.1, mcList ++ stepBig.2 ++ stepVol.2)

end Signals

namespace Signals

/-- Whatever `_emit_signal` emits carries the payload it was given. -/
theorem emit_signal_payload (cfg : EngineCfg)
    (cds : List ((String × String) × Int)) (now_ms : Int) (meta : TokenMeta)
    (p : SignalPayload) (et : String) (e : Emission)
    (h : (emit_signal cfg cds now_ms meta p et).2 = some e) :
    e.payload = p := by
  unfold emit_signal at h
  dsimp only at h
  split at h
  · simp at h
  · rw [← Option.some.inj h]

set_option maxHeartbeats 1000000 in
/-- Whatever `_maybe_emit_major_change` emits is a `major_change`. -/
theorem maybe_emit_major_change_signalValue (cfg : EngineCfg)
    (st : EngineState) (now_ms : Int) (meta : TokenMeta) (price : ℚ)
    (ts_ms : Int) (notional : Option ℚ) (source : String)
    (bb ba : Option ℚ) (e : Emission)
    (h : (maybe_emit_major_change cfg st now_ms meta price ts_ms notional
      source bb ba).2 = some e) :
    e.payload.signalValue = "major_change" := by
  unfold maybe_emit_major_change at h
  dsimp only at h
  repeat' split at h
  all_goals try simp_all
  all_goals
    have hp := emit_signal_payload _ _ _ _ _ _ _ h
  all_goals rw [hp]
  all_goals rfl

/-- Whatever the major-change step of `handle_trade` emits is a
`major_change`. -/
theorem majorChangeStep_signalValue (cfg : EngineCfg) (st : EngineState)
    (now_ms : Int) (meta : TokenMeta) (trade : TradeTick) (e : Emission)
    (h : (majorChangeStep cfg st now_ms meta trade).2 = some e) :
    e.payload.signalValue = "major_change" := by
  unfold majorChangeStep at h
  split at h
  · exact maybe_emit_major_change_signalValue _ _ _ _ _ _ _ _ _ _ _ h
  · cases h

end Signals

/-- C4 (amended): at flush time, the merge bucket re-applies the expiry
gate and — through `_emit_signal` — the `(token_id, signal)` cooldown
gate: a bucket whose market has expired at flush time, or whose cooldown
has not elapsed, emits nothing. (The high-confidence gate is applied at
deposit time only and is **not** re-checked at flush; see the
counterexample, where a bucket flushes at a high-confidence,
non-reverse-allowed price.) -/
theorem C4_flush_reapplies_expiry_and_cooldown (cfg : Signals.EngineCfg)
    (st : Signals.EngineState) (now_ms : Int) (key : String × String)
    (bucket : Signals.TradeSignalBucket) (meta : Signals.TokenMeta)
    (hb : dictGet st.trade_buckets key = some bucket)
    (hm : dictGet st.token_meta bucket.token_id = some meta)
    (hsupp : Signals.is_market_expired cfg meta now_ms = true ∨
      now_ms - (dictGet st.cooldowns (meta.token_id,
        if bucket.has_big_trade then "big_trade"
        else "volume_spike_1m")).getD 0 < cfg.cooldown_ms) :
    (Signals.flush_trade_bucket cfg st now_ms key).2 = Option.none := by
  unfold Signals.flush_trade_bucket
  rcases hsupp with hexp | hcd
  · simp [hb, hm, hexp]
  · by_cases hexp : Signals.is_market_expired cfg meta now_ms = true
    · simp [hb, hm, hexp]
    · cases hbt : bucket.has_big_trade
      · simp only [hbt, Bool.false_eq_true, if_false] at hcd
        simp [hb, hm, hexp, hbt, Signals.emit_signal,
          Signals.SignalPayload.signalValue, hcd]
      · simp only [hbt, if_true] at hcd
        simp [hb, hm, hexp, hbt, Signals.emit_signal,
          Signals.SignalPayload.signalValue, hcd]

/-- A merge-enabled engine configuration with an expired market and a
one-minute cooldown, for the C4 witness. -/
def c4wCfg : Signals.EngineCfg :=
  Signals.mkSignalEngine 1 1 Option.none 60 0 60 0 "book" 0 0 0 0 0 5 true

/-- Token metadata whose market ended at 10 ms. -/
def c4wMeta : Signals.TokenMeta :=
  ⟨"tk", "mk", "cat", Option.none, some "YES", Option.none, some 10⟩

/-- A pending big-trade bucket for that market. -/
def c4wBucket : Signals.TradeSignalBucket :=
  { market_id := "mk", token_id := "tk", side := some "YES",
    category := "cat", title := Option.none, topic_key := Option.none,
    end_ts := some 10, total_notional := 3, total_size := 2,
    last_price := 1, last_size := 1, has_big_trade := true }

/-- Engine state holding the bucket and the token registry. -/
def c4wSt : Signals.EngineState :=
  { token_meta := [("tk", c4wMeta)],
    trade_buckets := [(("mk", "YES"), c4wBucket)] }

unseal Rat.mul Rat.inv Rat.add Rat.sub in
/-- Witness for C4 (amended): flushing the bucket at `now = 100`, after
the market's end (10 ms), emits nothing. -/
theorem C4_flush_reapplies_expiry_and_cooldown_witness :
    (Signals.flush_trade_bucket c4wCfg c4wSt 100 ("mk", "YES")).2 =
      Option.none :=
  C4_flush_reapplies_expiry_and_cooldown c4wCfg c4wSt 100 ("mk", "YES")
    c4wBucket c4wMeta (by decide) (by decide) (Or.inl (by decide))

/-- A merge-enabled engine with `high_confidence_threshold = 0.9` and
`reverse_allow_threshold = 0.05` (and gates that are otherwise open). -/
def c4Cfg : Signals.EngineCfg :=
  Signals.mkSignalEngine (1/2) 1000000 Option.none 0 0 60 0 "trade" 0 0 0
    (9/10) (1/20) 5 true

/-- The monitored token for the C4 counterexample. -/
def c4Meta : Signals.TokenMeta :=
  ⟨"token-1", "m1", "finance", some "Test", some "YES", some "test",
    Option.none⟩

/-- Initial engine state: just the token registry. -/
def c4St0 : Signals.EngineState := { token_meta := [("token-1", c4Meta)] }

/-- First deposit: price 0.05 (high-confidence but reverse-allowed),
size 41 — notional 2.05, a big trade. -/
def c4Trade1 : Signals.TradeTick :=
  ⟨"token-1", Option.none, Option.none, 1/20, 41, 0⟩

/-- Second deposit: price 0.89 (below the high-confidence threshold),
size 1. -/
def c4Trade2 : Signals.TradeTick :=
  ⟨"token-1", Option.none, Option.none, 89/100, 1, 0⟩

/-- State after the first deposit. -/
def c4St1 : Signals.EngineState :=
  (Signals.handle_trade c4Cfg c4St0 0 c4Trade1).1

/-- State after both deposits. -/
def c4St2 : Signals.EngineState :=
  (Signals.handle_trade c4Cfg c4St1 0 c4Trade2).1

unseal Rat.mul Rat.inv Rat.add Rat.sub in
/-- Counterexample to C4 as stated: both deposits pass the deposit-time
gates and emit nothing; the flush then emits a `big_trade` at the
volume-weighted price 0.07 — which **is** in the high-confidence regime
(`max(0.07, 0.93) = 0.93 ≥ 0.9`) and **not** reverse-allowed
(`0.07 > 0.05`) — so the high-confidence gate of §4.6.1 is not re-applied
at flush time, contrary to the claim that such a bucket emits no signal. -/
theorem C4_flush_reapplies_expiry_and_cooldown_counterexample :
    (Signals.handle_trade c4Cfg c4St0 0 c4Trade1).2 = [] ∧
    (Signals.handle_trade c4Cfg c4St1 0 c4Trade2).2 = [] ∧
    (Signals.flush_trade_bucket c4Cfg c4St2 0 ("m1", "YES")).2 =
      some ⟨"token-1", "m1", "TradeSignal",
        Signals.SignalPayload.bigTrade (147/50) (7/100) 42 Option.none⟩ ∧
    Signals.is_high_confidence_market c4Cfg (7/100) = true ∧
    Signals.is_reverse_allow_price c4Cfg (7/100) = false := by
  refine ⟨by decide, by decide, by decide, by decide, by decide⟩

/-- C6: with merging disabled (`merge_window_sec = 0`), on a trade tick
where both flags hold — `notional ≥ big_trade_usd` and the updated
60-second window total ≥ `big_volume_1m_usd` — and the tick passes the
gates (token registered, market not expired, not suppressed by the
high-confidence gate, `big_trade` cooldown elapsed), the engine emits,
besides whatever the independent major-change rule produced for the same
tick, exactly one flag-derived signal: a single `big_trade` whose
`vol_1m` equals the current window total; no `volume_spike_1m` is
emitted for the tick. -/
theorem C6_both_flags_emit_single_big_trade (cfg : Signals.EngineCfg)
    (st : Signals.EngineState) (now_ms : Int) (trade : Signals.TradeTick)
    (meta : Signals.TokenMeta)
    (hmeta : dictGet st.token_meta trade.token_id = some meta)
    (hexp : Signals.is_market_expired cfg meta now_ms = false)
    (hmerge : cfg.merge_window_sec = 0)
    (hbig : cfg.big_trade_usd ≤ trade.price * trade.size)
    (hspike : cfg.big_volume_1m_usd ≤
      (Signals.windowAfterTrade st now_ms trade).total)
    (hgate : (Signals.is_high_confidence_market cfg trade.price &&
      !Signals.is_reverse_allow_price cfg trade.price) = false)
    (hcd : cfg.cooldown_ms ≤ now_ms -
      (dictGet (Signals.majorChangeStep cfg
          (Signals.stateAfterWindow st now_ms trade) now_ms meta
          trade).1.cooldowns (meta.token_id, "big_trade")).getD 0) :
    (Signals.handle_trade cfg st now_ms trade).2 =
      (Signals.majorChangeStep cfg (Signals.stateAfterWindow st now_ms trade)
        now_ms meta trade).2.toList ++
      [⟨meta.token_id, meta.market_id, "TradeSignal",
        Signals.SignalPayload.bigTrade (trade.price * trade.size) trade.price
          trade.size
          (some (Signals.windowAfterTrade st now_ms trade).total)⟩] ∧
    (∀ e ∈ (Signals.handle_trade cfg st now_ms trade).2,
      e.payload.signalValue ≠ "volume_spike_1m") := by
  have hbig' : decide (cfg.big_trade_usd ≤ trade.price * trade.size) =
      true := decide_eq_true hbig
  have hspike' : decide (cfg.big_volume_1m_usd ≤
      (Signals.windowAfterTrade st now_ms trade).total) = true :=
    decide_eq_true hspike
  have hmerge' : decide ((0 : ℚ) < cfg.merge_window_sec) = false := by
    rw [hmerge]
    decide
  have hcd' : ¬ (now_ms -
      (dictGet (Signals.majorChangeStep cfg
          (Signals.stateAfterWindow st now_ms trade) now_ms meta
          trade).1.cooldowns (meta.token_id, "big_trade")).getD 0 <
        cfg.cooldown_ms) := not_lt.2 hcd
  have hEq : (Signals.handle_trade cfg st now_ms trade).2 =
      (Signals.majorChangeStep cfg (Signals.stateAfterWindow st now_ms trade)
        now_ms meta trade).2.toList ++
      [⟨meta.token_id, meta.market_id, "TradeSignal",
        Signals.SignalPayload.bigTrade (trade.price * trade.size) trade.price
          trade.size
          (some (Signals.windowAfterTrade st now_ms trade).total)⟩] := by
    unfold Signals.handle_trade
    rw [hmeta]
    dsimp only
    rw [hexp]
    rw [hbig', hspike', hmerge']
    simp only [Bool.true_or, Bool.true_and]
    rw [hgate]
    simp only [Bool.false_eq_true, if_false, Bool.and_false, Bool.and_true,
      Bool.or_true, Bool.true_and]
    unfold Signals.emit_signal
    dsimp only [Signals.SignalPayload.signalValue]
    rw [if_neg hcd']
    rfl
  refine ⟨hEq, ?_⟩
  rw [hEq]
  intro e he
  rcases List.mem_append.1 he with hmc | hbt
  · rcases hmc' : (Signals.majorChangeStep cfg
        (Signals.stateAfterWindow st now_ms trade) now_ms meta trade).2 with
      _ | e'
    · rw [hmc'] at hmc; cases hmc
    · rw [hmc'] at hmc
      have : e = e' := by simpa using hmc
      rw [this,
        Signals.majorChangeStep_signalValue _ _ _ _ _ _ hmc']
      decide
  · have : e = ⟨meta.token_id, meta.market_id, "TradeSignal",
        Signals.SignalPayload.bigTrade (trade.price * trade.size) trade.price
          trade.size
          (some (Signals.windowAfterTrade st now_ms trade).total)⟩ := by
      simpa using hbt
    rw [this]
    dsimp only [Signals.SignalPayload.signalValue]
    decide

def c6Cfg : Signals.EngineCfg :=
  Signals.mkSignalEngine 100 100 Option.none 0 0 60 0 "trade" 0 0 0 0 0 0 true

def c6Meta : Signals.TokenMeta :=
  ⟨"token-1", "m1", "finance", some "Test", some "YES", some "test",
    Option.none⟩

def c6St : Signals.EngineState := { token_meta := [("token-1", c6Meta)] }

def c6Trade : Signals.TradeTick :=
  ⟨"token-1", Option.none, Option.none, 2, 60, 0⟩

unseal Rat.mul Rat.inv Rat.add Rat.sub in
theorem C6_both_flags_emit_single_big_trade_witness :
    dictGet c6St.token_meta c6Trade.token_id = some c6Meta ∧
    Signals.is_market_expired c6Cfg c6Meta 0 = false ∧
    c6Cfg.merge_window_sec = 0 ∧
    c6Cfg.big_trade_usd ≤ c6Trade.price * c6Trade.size ∧
    c6Cfg.big_volume_1m_usd ≤ (Signals.windowAfterTrade c6St 0 c6Trade).total ∧
    (Signals.is_high_confidence_market c6Cfg c6Trade.price &&
      !Signals.is_reverse_allow_price c6Cfg c6Trade.price) = false ∧
    c6Cfg.cooldown_ms ≤ 0 -
      (dictGet (Signals.majorChangeStep c6Cfg
          (Signals.stateAfterWindow c6St 0 c6Trade) 0 c6Meta
          c6Trade).1.cooldowns (c6Meta.token_id, "big_trade")).getD 0 ∧
    ((Signals.handle_trade c6Cfg c6St 0 c6Trade).2 =
      (Signals.majorChangeStep c6Cfg (Signals.stateAfterWindow c6St 0 c6Trade)
        0 c6Meta c6Trade).2.toList ++
      [⟨c6Meta.token_id, c6Meta.market_id, "TradeSignal",
        Signals.SignalPayload.bigTrade (c6Trade.price * c6Trade.size)
          c6Trade.price c6Trade.size
          (some (Signals.windowAfterTrade c6St 0 c6Trade).total)⟩] ∧
    (∀ e ∈ (Signals.handle_trade c6Cfg c6St 0 c6Trade).2,
      e.payload.signalValue ≠ "volume_spike_1m")) :=
  ⟨by decide, by decide, by decide, by decide, by decide, by decide,
    by decide,
    C6_both_flags_emit_single_big_trade c6Cfg c6St 0 c6Trade c6Meta
      (by decide) (by decide) (by decide) (by decide) (by decide) (by decide)
      (by decide)⟩

def c6cCfg : Signals.EngineCfg :=
  Signals.mkSignalEngine 100 100 Option.none 0 10 60 0 "trade" 0 0 0 0 0 0 true

def c6cSt : Signals.EngineState :=
  { token_meta := [("token-1", c6Meta)]
    last_price := [("token-1", ((1 : ℚ), (0 : Int)))] }

unseal Rat.mul Rat.inv Rat.add Rat.sub in
theorem C6_both_flags_emit_single_big_trade_counterexample :
    c6cCfg.merge_window_sec = 0 ∧
    c6cCfg.big_trade_usd ≤ c6Trade.price * c6Trade.size ∧
    c6cCfg.big_volume_1m_usd ≤
      (Signals.windowAfterTrade c6cSt 0 c6Trade).total ∧
    (Signals.handle_trade c6cCfg c6cSt 0 c6Trade).2.map
        (fun e => e.payload.signalValue) = ["major_change", "big_trade"] ∧
    (Signals.handle_trade c6cCfg c6cSt 0 c6Trade).2.length ≠ 1 :=
  ⟨by decide, by decide, by decide, by decide, by decide⟩
